import Mathlib

/-!
Verification model of the dynamic-property storage system
(`DataStorageSystem.js`): recursive save/load of object graphs into a flat
string-keyed store, with key abbreviation, per-type custom encoders,
reference-based deduplication of shared instances and a completion sweep
for cyclic loads.

The JavaScript heap is modelled explicitly: objects live in a `Heap`
indexed by numeric identities, and a JS value is either `undefined`,
`null`, a primitive, or a reference into the heap.  The dynamic-property
store is an association list from string keys to primitives.  Failure of
`setDynamicProperty` (the storage medium rejecting a write) is modelled by
a configurable set of bad keys; a thrown JS exception propagates as the
`err` outcome carrying the state at the throw point (earlier writes are
kept, as in the source).  Recursion is fuel-indexed; `oot` (out of fuel)
is a model artifact and never counts as a behavior of the program.

Module-level registries that the application populates before use
(`typesForReferenceBasedStorageSystem`, `KlassenRegistry`, the
abbreviation maps, the random pointer-suffix source) are fields of a
`Config`; the values shipped in the source file are `shippedConfig`.
-/

namespace DataStorage

/-- JS primitive values storable in a dynamic property. -/
inductive Prim where
  | num  (n : Int)
  | bool (b : Bool)
  | str  (s : String)
deriving DecidableEq, Repr

/-- A JS value: `undefined`, `null`, a primitive, or a reference to a heap object. -/
inductive Val where
  | undefined
  | null
  | prim (p : Prim)
  | ref (id : Nat)
deriving DecidableEq, Repr

/-- The kind of a heap object: plain object, `Array`, `Set` or `Map`. -/
inductive ObjKind where
  | plain
  | array
  | set
  | map
deriving DecidableEq, Repr

/-- A heap object.  `fields` are the named own properties in insertion
order (for arrays this excludes the index properties and `length`, which
are derived from `elems`).  `elems` carries Array/Set elements, `pairs`
carries Map entries; for other kinds those lists are empty. -/
structure Obj where
  kind   : ObjKind
  fields : List (String × Val)
  elems  : List Val
  pairs  : List (Val × Val)
deriving DecidableEq, Repr

/-- The JS heap: objects addressed by allocation index. -/
structure Heap where
  objs : List Obj
deriving DecidableEq, Repr

def Heap.get (h : Heap) (i : Nat) : Option Obj := h.objs[i]?

def Heap.set (h : Heap) (i : Nat) (o : Obj) : Heap := ⟨h.objs.set i o⟩

/-- Allocate a fresh object, returning the new heap and the new identity. -/
def Heap.alloc (h : Heap) (o : Obj) : Heap × Nat := (⟨h.objs ++ [o]⟩, h.objs.length)

def emptyHeap : Heap := ⟨[]⟩

/-- A plain empty object literal `{}`. -/
def emptyPlain : Obj := ⟨.plain, [], [], []⟩

/-- Lookup in an association list of named fields. -/
def lookupField : List (String × Val) → String → Option Val
  | [], _ => none
  | e :: rest, k => if e.1 == k then some e.2 else lookupField rest k

/-- Assign a named field: overwrite in place if present, else append
(JS own-property insertion-order semantics). -/
def setField (fs : List (String × Val)) (k : String) (v : Val) : List (String × Val) :=
  match fs with
  | [] => [(k, v)]
  | e :: rest => if e.1 == k then (k, v) :: rest else e :: setField rest k v

/-- Decimal strings of the indices `0 .. n-1`. -/
def idxKeys (n : Nat) : List String := (List.range n).map (fun i => toString i)

/-- `Object.getOwnPropertyNames`: for arrays the index strings, then
`length`, then the extra named properties; for every other kind the named
properties only (Set/Map elements are internal slots, not own properties). -/
def Obj.ownNames (o : Obj) : List String :=
  match o.kind with
  | .array => idxKeys o.elems.length ++ ["length"] ++ o.fields.map (fun e => e.1)
  | _ => o.fields.map (fun e => e.1)

/-- Parse a digit string (kernel-reducible stand-in for `String.toNat?`). -/
def digitsToNat : List Char → Nat → Option Nat
  | [], acc => some acc
  | c :: cs, acc => if c.isDigit then digitsToNat cs (acc * 10 + (c.toNat - 48)) else none

def parseNat (s : String) : Option Nat :=
  match s.data with
  | [] => none
  | l => digitsToNat l 0

/-- Decode a property key as an array index `< len`. -/
def decodeIdx (len : Nat) (k : String) : Option Nat :=
  match parseNat k with
  | some i => if i < len then some i else none
  | none => none

/-- JS array length update: truncate or pad with `undefined`. -/
def resizeElems (es : List Val) (n : Nat) : List Val :=
  if n ≤ es.length then es.take n else es ++ List.replicate (n - es.length) .undefined

/-- Property read `o[k]` (absent gives `undefined`). -/
def Obj.getProp (o : Obj) (k : String) : Val :=
  match o.kind with
  | .array =>
    match decodeIdx o.elems.length k with
    | some i => o.elems.getD i .undefined
    | none =>
      if k == "length" then .prim (.num o.elems.length)
      else (lookupField o.fields k).getD .undefined
  | _ => (lookupField o.fields k).getD .undefined

/-- Property write `o[k] = v`. -/
def Obj.setProp (o : Obj) (k : String) (v : Val) : Obj :=
  match o.kind with
  | .array =>
    match decodeIdx o.elems.length k with
    | some i => { o with elems := o.elems.set i v }
    | none =>
      if k == "length" then
        match v with
        | .prim (.num n) => { o with elems := resizeElems o.elems n.toNat }
        | _ => o
      else { o with fields := setField o.fields k v }
  | _ => { o with fields := setField o.fields k v }

/-- Write property `k` of heap object `i`. -/
def heapSetProp (h : Heap) (i : Nat) (k : String) (v : Val) : Heap :=
  match h.get i with
  | some o => h.set i (o.setProp k v)
  | none => h

/-- JS truthiness. -/
def jsTruthy (v : Val) : Bool :=
  match v with
  | .undefined => false
  | .null => false
  | .prim (.num n) => n != 0
  | .prim (.bool b) => b
  | .prim (.str s) => s != ""
  | .ref _ => true

/-- JS string coercion as used in template literals. -/
def jsStr (v : Val) : String :=
  match v with
  | .undefined => "undefined"
  | .null => "null"
  | .prim (.num n) => toString n
  | .prim (.bool b) => if b then "true" else "false"
  | .prim (.str s) => s
  | .ref _ => "[object Object]"

/-- `s.split(",")` (the JS behavior: `"".split(",") = [""]`). -/
def jsSplit (s : String) : List String :=
  (s.data.splitOn ',').map (fun l => String.mk l)

/-- `xs.join(",")`. -/
def joinComma (xs : List String) : String :=
  match xs with
  | [] => ""
  | [x] => x
  | x :: rest => x ++ "," ++ joinComma rest

/-- `const ignoreProperties = new Set([])` — shipped empty. -/
def ignoreProperties : List String := []

/-- `const typesWithCostumizedStorageSystem = new Set(["Array", "storageReference", "Set", "Map"])`. -/
def typesWithCostumizedStorageSystem : List String :=
  ["Array", "storageReference", "Set", "Map"]

/-- Application-populated module state: the reference-based-storage type
set, the abbreviation maps, the class registry (type tag to the blank
instance `new C()` produces), the random pointer-suffix source
(`V3Collection.generateRandomStringWithSymbols(35)`, modelled as an
oracle over a mint counter), and the set of store keys on which
`setDynamicProperty` throws. -/
structure Config where
  refTypes    : List String
  abbrevs     : List (String × String)
  abbrevsLoad : List (String × String)
  registry    : List (String × Obj)
  rand        : Nat → String
  badKeys     : List String

/-- String-keyed association lookup. -/
def lookupStr {α : Type} : List (String × α) → String → Option α
  | [], _ => none
  | e :: rest, k => if e.1 == k then some e.2 else lookupStr rest k

/-- `abbreviationsMap.get(key) ?? key` — the save-side abbreviation. -/
def abbrevSave (cfg : Config) (k : String) : String :=
  (lookupStr cfg.abbrevs k).getD k

/-- `abbreviationsLoad.get(key) ?? key` — the load-side expansion. -/
def expandLoad (cfg : Config) (k : String) : String :=
  (lookupStr cfg.abbrevsLoad k).getD k

/-- The maps shipped in the source:
`abbreviationsMap = [['property','abbreviation']]` and
`abbreviationsLoad = [['abbreviation','property']]`. -/
def shippedAbbrevs : List (String × String) := [("property", "abbreviation")]

def shippedAbbrevsLoad : List (String × String) := [("abbreviation", "property")]

/-- `initializeClasses()`: `'Array': Array, "Map": Map, "Set": Set`. -/
def shippedRegistry : List (String × Obj) :=
  [("Array", ⟨.array, [], [], []⟩), ("Map", ⟨.map, [], [], []⟩), ("Set", ⟨.set, [], [], []⟩)]

/-- `Save.getType`: `Array.isArray` / `instanceof Map` / `instanceof Set`
win; otherwise the instance's own declared `type` value. -/
def getTypeVal (o : Obj) : Val :=
  match o.kind with
  | .array => .prim (.str "Array")
  | .map => .prim (.str "Map")
  | .set => .prim (.str "Set")
  | .plain => o.getProp "type"

/-- The line-139 mutation `instance.type = Save.getType(instance)`. -/
def tagObj (o : Obj) : Obj := o.setProp "type" (getTypeVal o)

/-- `.size` read: real size for Set/Map, plain property read otherwise. -/
def jsSize (o : Obj) : Val :=
  match o.kind with
  | .set => .prim (.num o.elems.length)
  | .map => .prim (.num o.pairs.length)
  | _ => o.getProp "size"

/-- `for (const item of instance)` element view (Set encoder): Sets and
Arrays are iterable by element; other kinds throw (`none`). Iterating a
Map in the Set encoder would yield fresh entry arrays; that corner is
unreachable in this development and is modelled as a throw. -/
def forOfElems (o : Obj) : Option (List Val) :=
  match o.kind with
  | .set => some o.elems
  | .array => some o.elems
  | _ => none

/-- `for (const [key, value] of instance)` entry view (Map encoder). -/
def forOfPairs (o : Obj) : Option (List (Val × Val)) :=
  match o.kind with
  | .map => some o.pairs
  | _ => none

/-- The fresh placeholder literal `{ type: "storageReference", pointer: p }`. -/
def mkPointerObj (p : Val) : Obj :=
  ⟨.plain, [("type", .prim (.str "storageReference")), ("pointer", p)], [], []⟩

/-- The dynamic-property store. -/
abbrev StoreT : Type := List (String × Prim)

def storeGet : StoreT → String → Option Prim
  | [], _ => none
  | e :: rest, k => if e.1 == k then some e.2 else storeGet rest k

def storeSet (st : StoreT) (k : String) (p : Prim) : StoreT :=
  match st with
  | [] => [(k, p)]
  | e :: rest => if e.1 == k then (k, p) :: rest else e :: storeSet rest k p

def storeDel (st : StoreT) (k : String) : StoreT :=
  st.filter (fun e => !(e.1 == k))

/-- `Option Prim` as the JS value `getDynamicProperty` returns. -/
def valOf (p : Option Prim) : Val :=
  match p with
  | some q => .prim q
  | none => .undefined

/-- `storageDest.setDynamicProperty(k, v)`: throws (`none`) on a bad key
or a non-primitive value; storing `undefined` removes the entry. -/
def setDynamicProperty (cfg : Config) (k : String) (v : Val) (st : StoreT) : Option StoreT :=
  if k ∈ cfg.badKeys then none
  else
    match v with
    | .undefined => some (storeDel st k)
    | .prim p => some (storeSet st k p)
    | _ => none

/-- The enumerable and non-enumerable members every object literal
inherits from `Object.prototype`: a property access `KlassenRegistry[t]`
on the registry literal finds these even when `t` was never registered. -/
def protoMembers : List String :=
  ["constructor", "toString", "toLocaleString", "valueOf", "hasOwnProperty",
   "isPrototypeOf", "propertyIsEnumerable", "__defineGetter__", "__defineSetter__",
   "__lookupGetter__", "__lookupSetter__", "__proto__"]

/-- Outcome of the registry access `KlassenRegistry[instanceType]`
(line 356) followed by `new KlassenRegistry[type]()` (line 478):
a constructible hit (an own registration, or the inherited `constructor`
member, which is `Object` and yields `{}`), a truthy inherited member on
which `new` throws TypeError, or `undefined`. -/
inductive RegHit where
  | cls (tpl : Obj)
  | nonCtor
  | miss
deriving DecidableEq, Repr

def registryAccess (cfg : Config) (t : String) : RegHit :=
  match lookupStr cfg.registry t with
  | some tpl => .cls tpl
  | none =>
    if t = "constructor" then .cls emptyPlain
    else if t ∈ protoMembers then .nonCtor
    else .miss

/-- Save-pass state: the heap, the store, `savedStorageReferences`
(instance identity to pointer) and the pointer mint counter. -/
structure SaveSt where
  heap      : Heap
  store     : StoreT
  savedRefs : List (Nat × String)
  ctr       : Nat
deriving DecidableEq, Repr

def lookupNat : List (Nat × String) → Nat → Option String
  | [], _ => none
  | e :: rest, k => if e.1 == k then some e.2 else lookupNat rest k

/-- Outcome of a save call: normal return, a propagating JS exception
(carrying the state at the throw), or fuel exhaustion (model artifact). -/
inductive SRes where
  | ok (s : SaveSt)
  | err (s : SaveSt)
  | oot
deriving DecidableEq, Repr

/-- `Save.getKeys(instance, filter)`.  The source condition is
`(filter && !ignoreProperties.has(prop)) && typeof instance[prop] !== 'function'`,
so with `filter = false` nothing is ever pushed and the result is `[]`
(the conjunction swallows the flag); the model reproduces this. -/
def getKeys (h : Heap) (i : Nat) (filt : Bool) : List String :=
  match h.get i with
  | none => []
  | some o => o.ownNames.filter (fun p => filt && !(p ∈ ignoreProperties))

/-- A pending call into the save engine: an outer `saveInstance`, the
default per-field loop, `costumizedSave`, or the Set/Map element loops. -/
inductive SCall where
  | inst (v : Val) (saveKey : String) (ca ra : Bool)
  | props (i : Nat) (ks : List String) (baseKey : String) (catching : Bool)
  | custom (i : Nat) (saveKey : String)
  | items (vs : List Val) (saveKey : String) (idx : Nat)
  | pairs (es : List (Val × Val)) (saveKey : String) (idx : Nat)

/-- One step of the save engine; `rec` performs the nested calls (at one
unit less fuel in `saveRun`).  Each alternative transcribes the
corresponding source function; see the wrappers below for the mapping. -/
def saveStep (cfg : Config) (rec : SCall → SaveSt → SRes) : SCall → SaveSt → SRes :=
  fun c s =>
  match c with
  -- `Save.saveInstance(instance, saveKey, dest, costumizedSaveAllowed, storageReferenceAllowed)`:
  -- `if (instance == null) return` covers both `null` and `undefined`
  | .inst .undefined _ _ _ => .ok s
  | .inst .null _ _ _ => .ok s
  -- primitives: one guarded write, a failure is caught and logged
  | .inst (.prim p) saveKey _ _ =>
    (match setDynamicProperty cfg saveKey (.prim p) s.store with
     | some st => .ok { s with store := st }
     | none => .ok s)
  | .inst (.ref i) saveKey ca ra =>
    match s.heap.get i with
    | none => .err s
    | some o =>
      -- line 139: `instance.type = Save.getType(instance)`
      let tv := getTypeVal o
      let s1 : SaveSt := { s with heap := s.heap.set i (tagObj o) }
      let isRefType := match tv with
        | .prim (.str t) => t ∈ cfg.refTypes
        | _ => false
      if ra && isRefType then
        match lookupNat s1.savedRefs i with
        | some pointer =>
          -- already saved: store a reference pointer instead
          let al := s1.heap.alloc (mkPointerObj (.prim (.str pointer)))
          rec (.inst (.ref al.2) saveKey true true) { s1 with heap := al.1 }
        | none =>
          -- mint a pointer, save the full object there (references off),
          -- then store a reference at the original key
          let pointer := saveKey ++ cfg.rand s1.ctr
          let s2 : SaveSt :=
            { s1 with savedRefs := (i, pointer) :: s1.savedRefs, ctr := s1.ctr + 1 }
          match rec (.inst (.ref i) pointer true false) s2 with
          | .ok s3 =>
            let al := s3.heap.alloc (mkPointerObj (.prim (.str pointer)))
            rec (.inst (.ref al.2) saveKey true true) { s3 with heap := al.1 }
          | r => r
      else
        let isCustom := jsTruthy tv &&
          (match tv with
           | .prim (.str t) => t ∈ typesWithCostumizedStorageSystem
           | _ => false) && ca
        if isCustom then
          rec (.custom i saveKey) s1
        else
          -- default encoding: unguarded keys-list write, then the field loop
          let keys := getKeys s1.heap i true
          match setDynamicProperty cfg (saveKey ++ "keys")
              (.prim (.str (joinComma (keys.map (abbrevSave cfg))))) s1.store with
          | none => .err s1
          | some st2 => rec (.props i keys saveKey true) { s1 with store := st2 }
  -- the per-field save loop; `catching = true` is the default path (lines
  -- 191-203, each save in try/catch, the loop continues on failure),
  -- `catching = false` is the Array encoder loop (lines 246-250, no try)
  | .props _ [] _ _ => .ok s
  | .props i (k :: ks) baseKey catching =>
    let prop := match s.heap.get i with
      | some o => o.getProp k
      | none => .undefined
    match rec (.inst prop (baseKey ++ abbrevSave cfg k) true true) s with
    | .ok s2 => rec (.props i ks baseKey catching) s2
    | .err s2 =>
      if catching then rec (.props i ks baseKey catching) s2 else .err s2
    | .oot => .oot
  -- `Save.costumizedSave(instance, saveKey, storageDest)`: `switch (instance.type)`
  | .custom i saveKey =>
    let tv := match s.heap.get i with
      | some o => o.getProp "type"
      | none => .undefined
    if tv == .prim (.str "Array") then
      -- keys-list write in its own try/catch, then the unguarded element loop
      let s1 := match setDynamicProperty cfg (saveKey ++ "keys")
          (.prim (.str (joinComma (["length", "type"].map (abbrevSave cfg))))) s.store with
        | some st => { s with store := st }
        | none => s
      rec (.props i (getKeys s1.heap i true) saveKey false) s1
    else if tv == .prim (.str "Set") then
      -- one shared try block: type tag, size, and the whole element loop
      let inner : SRes :=
        match s.heap.get i with
        | none => .err s
        | some o =>
          match setDynamicProperty cfg (saveKey ++ "type") (.prim (.str "Set")) s.store with
          | none => .err s
          | some st1 =>
            let s1 : SaveSt := { s with store := st1 }
            match setDynamicProperty cfg (saveKey ++ "size") (jsSize o) s1.store with
            | none => .err s1
            | some st2 =>
              let s2 : SaveSt := { s1 with store := st2 }
              match forOfElems o with
              | none => .err s2
              | some items => rec (.items items saveKey 0) s2
      (match inner with
       | .err s2 => .ok s2
       | r => r)
    else if tv == .prim (.str "Map") then
      let inner : SRes :=
        match s.heap.get i with
        | none => .err s
        | some o =>
          match setDynamicProperty cfg (saveKey ++ "type") (.prim (.str "Map")) s.store with
          | none => .err s
          | some st1 =>
            let s1 : SaveSt := { s with store := st1 }
            match setDynamicProperty cfg (saveKey ++ "size") (jsSize o) s1.store with
            | none => .err s1
            | some st2 =>
              let s2 : SaveSt := { s1 with store := st2 }
              match forOfPairs o with
              | none => .err s2
              | some entries => rec (.pairs entries saveKey 0) s2
      (match inner with
       | .err s2 => .ok s2
       | r => r)
    else
      -- default case: back into saveInstance with custom saving disabled
      rec (.inst (.ref i) saveKey false true) s
  -- the Set encoder element loop (inside the shared try: an exception
  -- aborts the remaining elements and is caught at Set level)
  | .items [] _ _ => .ok s
  | .items (v :: vs) saveKey idx =>
    match rec (.inst v (saveKey ++ "item" ++ toString idx) true true) s with
    | .ok s2 => rec (.items vs saveKey (idx + 1)) s2
    | r => r
  -- the Map encoder entry loop (same shared try pattern)
  | .pairs [] _ _ => .ok s
  | .pairs (e :: es) saveKey idx =>
    match rec (.inst e.1 (saveKey ++ "key" ++ toString idx) true true) s with
    | .ok s2 =>
      match rec (.inst e.2 (saveKey ++ "value" ++ toString idx) true true) s2 with
      | .ok s3 => rec (.pairs es saveKey (idx + 1)) s3
      | r => r
    | r => r

/-- Fuel-indexed save engine: `fuel` bounds the call depth; `0` gives
`oot`, which is never a behavior of the program. -/
def saveRun (cfg : Config) (fuel : Nat) : SCall → SaveSt → SRes :=
  Nat.rec (motive := fun _ => SCall → SaveSt → SRes)
    (fun _ _ => .oot) (fun _ ih => saveStep cfg ih) fuel

/-- `Save.saveInstance(instance, saveKey, storageDest, costumizedSaveAllowed, storageReferenceAllowed)`. -/
def saveInstance (cfg : Config) (fuel : Nat) (v : Val) (saveKey : String)
    (ca ra : Bool) (s : SaveSt) : SRes :=
  saveRun cfg fuel (.inst v saveKey ca ra) s

/-- The default per-field save loop (lines 191-203 / 246-250). -/
def saveProps (cfg : Config) (fuel : Nat) (i : Nat) (ks : List String)
    (baseKey : String) (catching : Bool) (s : SaveSt) : SRes :=
  saveRun cfg fuel (.props i ks baseKey catching) s

/-- `Save.costumizedSave(instance, saveKey, storageDest)`. -/
def costumizedSave (cfg : Config) (fuel : Nat) (i : Nat) (saveKey : String)
    (s : SaveSt) : SRes :=
  saveRun cfg fuel (.custom i saveKey) s

/-- One `loadedStorageReferences` entry: `{ isLoaded, value }`
(`value = null` while not yet loaded). -/
structure LEntry where
  isLoaded : Bool
  value    : Val
deriving DecidableEq, Repr

/-- Load-pass state: the heap being built and `loadedStorageReferences`
(pointer value to load state). -/
structure LoadSt where
  heap : Heap
  refs : List (Val × LEntry)
deriving DecidableEq, Repr

def refsGet : List (Val × LEntry) → Val → Option LEntry
  | [], _ => none
  | e :: rest, p => if e.1 == p then some e.2 else refsGet rest p

def refsSet (rs : List (Val × LEntry)) (p : Val) (e : LEntry) : List (Val × LEntry) :=
  match rs with
  | [] => [(p, e)]
  | q :: rest => if q.1 == p then (p, e) :: rest else q :: refsSet rest p e

/-- `Map.prototype.set`: replace the value of an existing key, else append. -/
def mapPut (ps : List (Val × Val)) (k v : Val) : List (Val × Val) :=
  match ps with
  | [] => [(k, v)]
  | q :: rest => if q.1 == k then (k, v) :: rest else q :: mapPut rest k v

/-- Outcome of a load call: a value with the new state, a propagating JS
exception, or fuel exhaustion (model artifact). -/
inductive LRes where
  | ok (v : Val) (s : LoadSt)
  | err (s : LoadSt)
  | oot
deriving DecidableEq, Repr

/-- The stored keys list as the load engine sees it after
`let keys = get(loadKey + "keys"); if (keys) keys = keys.split(",")`:
a split string, a falsy non-string (stays unsplit and fails the
`keys && keys.length > 0` test), or a truthy non-string (`.split` throws). -/
inductive KeysRead where
  | strs (l : List String)
  | falsy
  | bad
deriving DecidableEq, Repr

def readKeys (st : StoreT) (loadKey : String) : KeysRead :=
  match storeGet st (loadKey ++ "keys") with
  | some (.str ks) => .strs (jsSplit ks)
  | some (.num n) => if n == 0 then .falsy else .bad
  | some (.bool b) => if b then .bad else .falsy
  | none => .falsy

/-- A pending call into the load engine. -/
inductive LCall where
  | inst (loadKey : String) (ca : Bool)
  | props (i : Nat) (ks : List String) (loadKey : String)
  | custom (t : String) (loadKey : String)
  | items (i : Nat) (size : Nat) (idx : Nat) (loadKey : String)
  | pairs (i : Nat) (size : Nat) (idx : Nat) (loadKey : String)

/-- A pending call into the completion sweep. -/
inductive WCall where
  | sweep (v : Val) (parent : Option (Nat × String))
  | fieldsLoop (i : Nat) (ks : List String)

/-- One step of `Load.completeMissingProperties` and its own-field loop. -/
def sweepStep (rec : WCall → LoadSt → Option LoadSt) : WCall → LoadSt → Option LoadSt :=
  fun c s =>
  match c with
  | .sweep inst parent =>
    match inst with
    | .prim _ => some s
    | .undefined => some s
    | .null => some s
    | .ref i =>
      let keys := getKeys s.heap i false
      if keys.length ≤ 0 then some s
      else
        let tv := match s.heap.get i with
          | some o => o.getProp "type"
          | none => .undefined
        let pv := match s.heap.get i with
          | some o => o.getProp "pointer"
          | none => .undefined
        if tv == .prim (.str "storageReference") && (refsGet s.refs pv).isSome then
          match parent with
          | some pp =>
            some { s with
              heap := heapSetProp s.heap pp.1 pp.2
                (((refsGet s.refs pv).getD ⟨false, .null⟩).value) }
          | none => some s
        else
          rec (.fieldsLoop i keys) s
  | .fieldsLoop i ks =>
    match ks with
    | [] => some s
    | k :: rest =>
      let child := match s.heap.get i with
        | some o => o.getProp k
        | none => .undefined
      match rec (.sweep child (some (i, k))) s with
      | some s2 => rec (.fieldsLoop i rest) s2
      | none => none

/-- Fuel-indexed completion sweep. -/
def sweepRun (fuel : Nat) : WCall → LoadSt → Option LoadSt :=
  Nat.rec (motive := fun _ => WCall → LoadSt → Option LoadSt)
    (fun _ _ => none) (fun _ ih => sweepStep ih) fuel

/-- One step of the load engine over a fixed store; `rec` performs nested
load calls, `recW` the completion sweep. -/
def loadStep (cfg : Config) (store : StoreT) (rec : LCall → LoadSt → LRes)
    (recW : WCall → LoadSt → Option LoadSt) : LCall → LoadSt → LRes :=
  fun c s =>
  match c with
  -- `Load.loadInstance(loadKey, storageDest, costumizedSaveAllowed)`
  | .inst loadKey ca =>
    -- line 347: the type tag is read at `loadKey + "t"`
    let instanceType := valOf (storeGet store (loadKey ++ "t"))
    let isCustom := jsTruthy instanceType &&
      (match instanceType with
       | .prim (.str t) => t ∈ typesWithCostumizedStorageSystem
       | _ => false) && ca
    if isCustom then
      match instanceType with
      | .prim (.str t) => rec (.custom t loadKey) s
      | _ => .err s
    else
      -- lines 356-358: instantiate from the class registry on a truthy tag;
      -- the object-literal access also finds inherited `Object.prototype`
      -- members, and `new` on a non-constructor member throws TypeError
      let reg : RegHit :=
        if jsTruthy instanceType then
          match instanceType with
          | .prim (.str t) => registryAccess cfg t
          | _ => .miss
        else .miss
      let afterReg : Option (Heap × Option Nat) :=
        match reg with
        | .cls tpl =>
          let al := s.heap.alloc tpl
          some (al.1, some al.2)
        | .nonCtor => none
        | .miss => some (s.heap, none)
      match afterReg with
      | none => .err s
      | some hr =>
      -- lines 367-369: `if (!instance) instance = {}`
      let afterDefault : Heap × Nat :=
        match hr.2 with
        | some i => (hr.1, i)
        | none => hr.1.alloc emptyPlain
      let s1 : LoadSt := { s with heap := afterDefault.1 }
      let inst := afterDefault.2
      match readKeys store loadKey with
      | .bad => .err s1
      | .falsy => .ok (valOf (storeGet store loadKey)) s1
      | .strs keys =>
        if keys.length > 0 then
          rec (.props inst (keys.filter (fun k => !(k ∈ ignoreProperties))) loadKey) s1
        else
          .ok (valOf (storeGet store loadKey)) s1
  -- the per-key load loop of the default decoder (lines 375-379)
  | .props i ks loadKey =>
    match ks with
    | [] => .ok (.ref i) s
    | k :: rest =>
      match rec (.inst (loadKey ++ k) true) s with
      | .ok v s2 =>
        rec (.props i rest loadKey)
          { s2 with heap := heapSetProp s2.heap i (expandLoad cfg k) v }
      | r => r
  -- `Load.costumizedLoad(type, loadKey, storageDest)`
  | .custom t loadKey =>
    if t == "Array" then
      match storeGet store (loadKey ++ "length") with
      | some (.num n) =>
        if n < 0 then .err s
        else
          let al := s.heap.alloc ⟨.array, [], List.replicate n.toNat (.prim (.num 1)), []⟩
          let arrKeys := (getKeys al.1 al.2 true).filter (fun k => !(k ∈ ignoreProperties))
          rec (.props al.2 arrKeys loadKey) { s with heap := al.1 }
      | _ => .err s
    else if t == "storageReference" then
      let pointer := valOf (storeGet store (loadKey ++ "pointer"))
      match refsGet s.refs pointer with
      | some e =>
        if e.isLoaded then .ok e.value s
        else
          -- in-progress pointer: hand back a fresh placeholder record
          let al := s.heap.alloc (mkPointerObj pointer)
          .ok (.ref al.2) { s with heap := al.1 }
      | none =>
        -- mark unresolved, load the pointed-to subgraph, mark resolved,
        -- then run the completion sweep over it
        let s1 : LoadSt := { s with refs := refsSet s.refs pointer ⟨false, .null⟩ }
        match rec (.inst (jsStr pointer) true) s1 with
        | .ok w s2 =>
          let s3 : LoadSt := { s2 with refs := refsSet s2.refs pointer ⟨true, w⟩ }
          match recW (.sweep w none) s3 with
          | some s4 => .ok w s4
          | none => .oot
        | r => r
    else if t == "Set" then
      let size : Nat :=
        match storeGet store (loadKey ++ "size") with
        | some (.num n) => n.toNat
        | _ => 0
      let al := s.heap.alloc ⟨.set, [], [], []⟩
      rec (.items al.2 size 0 loadKey) { s with heap := al.1 }
    else if t == "Map" then
      let size : Nat :=
        match storeGet store (loadKey ++ "size") with
        | some (.num n) => n.toNat
        | _ => 0
      let al := s.heap.alloc ⟨.map, [], [], []⟩
      rec (.pairs al.2 size 0 loadKey) { s with heap := al.1 }
    else
      rec (.inst loadKey false) s
  -- the Set decoder loop: load `item i`, then `result.add(item)` (dedup)
  | .items i size idx loadKey =>
    if idx < size then
      match rec (.inst (loadKey ++ "item" ++ toString idx) true) s with
      | .ok v s2 =>
        let h2 := match s2.heap.get i with
          | some o =>
            if v ∈ o.elems then s2.heap
            else s2.heap.set i { o with elems := o.elems ++ [v] }
          | none => s2.heap
        rec (.items i size (idx + 1) loadKey) { s2 with heap := h2 }
      | r => r
    else .ok (.ref i) s
  -- the Map decoder loop: load `key i` / `value i`, then `result.set(key, value)`
  | .pairs i size idx loadKey =>
    if idx < size then
      match rec (.inst (loadKey ++ "key" ++ toString idx) true) s with
      | .ok kv s2 =>
        match rec (.inst (loadKey ++ "value" ++ toString idx) true) s2 with
        | .ok vv s3 =>
          let h2 := match s3.heap.get i with
            | some o => s3.heap.set i { o with pairs := mapPut o.pairs kv vv }
            | none => s3.heap
          rec (.pairs i size (idx + 1) loadKey) { s3 with heap := h2 }
        | r => r
      | r => r
    else .ok (.ref i) s

/-- Fuel-indexed load engine. -/
def loadRun (cfg : Config) (store : StoreT) (fuel : Nat) : LCall → LoadSt → LRes :=
  Nat.rec (motive := fun _ => LCall → LoadSt → LRes)
    (fun _ _ => .oot) (fun n ih => loadStep cfg store ih (sweepRun n)) fuel

/-- `Load.loadInstance(loadKey, storageDest, costumizedSaveAllowed)`. -/
def loadInstance (cfg : Config) (fuel : Nat) (loadKey : String) (ca : Bool)
    (store : StoreT) (s : LoadSt) : LRes :=
  loadRun cfg store fuel (.inst loadKey ca) s

/-- The default decoder's per-key load loop (lines 375-379). -/
def loadProps (cfg : Config) (fuel : Nat) (i : Nat) (ks : List String)
    (loadKey : String) (store : StoreT) (s : LoadSt) : LRes :=
  loadRun cfg store fuel (.props i ks loadKey) s

/-- `Load.costumizedLoad(type, loadKey, storageDest)`. -/
def costumizedLoad (cfg : Config) (fuel : Nat) (t : String) (loadKey : String)
    (store : StoreT) (s : LoadSt) : LRes :=
  loadRun cfg store fuel (.custom t loadKey) s

/-- `Load.completeMissingProperties(instance, parent, prop)` — the
completion sweep.  Returns `none` only on fuel exhaustion. -/
def completeMissingProperties (fuel : Nat) (v : Val) (parent : Option (Nat × String))
    (s : LoadSt) : Option LoadSt :=
  sweepRun fuel (.sweep v parent) s

/-- The sweep's own-field loop. -/
def sweepProps (fuel : Nat) (i : Nat) (ks : List String) (s : LoadSt) : Option LoadSt :=
  sweepRun fuel (.fieldsLoop i ks) s

/-! ### Result projections (for concise statements about runs) -/

/-- The store after a save run (`none` only on fuel exhaustion). -/
def SRes.storeOf : SRes → Option StoreT
  | .ok s => some s.store
  | .err s => some s.store
  | .oot => none

/-- The heap after a save run. -/
def SRes.heapOf : SRes → Option Heap
  | .ok s => some s.heap
  | .err s => some s.heap
  | .oot => none

/-- The value a successful load returned. -/
def LRes.retVal : LRes → Option Val
  | .ok v _ => some v
  | _ => none

/-- Property `k` of the object a successful load returned. -/
def LRes.propOf (r : LRes) (k : String) : Option Val :=
  match r with
  | .ok (.ref i) s => (s.heap.get i).map (fun o => o.getProp k)
  | _ => none

/-- The heap after a successful load. -/
def LRes.heapOf : LRes → Option Heap
  | .ok _ s => some s.heap
  | _ => none

/-! ### Concrete fixtures used by individual claims -/

/-- A fixed pointer-suffix oracle (stands in for the 35 random symbols). -/
def oneRand : Nat → String := fun _ => "@@@"

/-- The configuration shipped in the source file:
no types registered for reference-based storage, the shipped
abbreviation maps, the `initializeClasses()` registry, no failing keys. -/
def shippedCfg : Config :=
  ⟨[], shippedAbbrevs, shippedAbbrevsLoad, shippedRegistry, oneRand, []⟩

/-- Shipped configuration plus an application-registered type `"Foo"` in
`typesForReferenceBasedStorageSystem`. -/
def fooCfg : Config :=
  ⟨["Foo"], shippedAbbrevs, shippedAbbrevsLoad, shippedRegistry, oneRand, []⟩

/-- Like `fooCfg` but with the abbreviation pair `type ↔ t` the load
engine's hard-coded tag key `loadKey ++ "t"` presupposes. -/
def fooCfgT : Config :=
  ⟨["Foo"], [("type", "t")], [("t", "type")], shippedRegistry, oneRand, []⟩

/-- Shipped configuration with one failing store key `"Kitem0keys"`. -/
def badItemCfg : Config :=
  ⟨[], shippedAbbrevs, shippedAbbrevsLoad, shippedRegistry, oneRand, ["Kitem0keys"]⟩

/-- Shipped configuration with one failing store key `"Kb"`. -/
def badBCfg : Config :=
  ⟨[], shippedAbbrevs, shippedAbbrevsLoad, shippedRegistry, oneRand, ["Kb"]⟩

/-- Heap holding the Set `{1}` at identity 0. -/
def setHeap : Heap := ⟨[⟨.set, [], [.prim (.num 1)], []⟩]⟩

/-- The store produced by saving the Set `{1}` at `"K"`. -/
def setStore : StoreT := [("Ktype", .str "Set"), ("Ksize", .num 1), ("Kitem0", .num 1)]

/-- Heap holding the self-referencing instance `a` with `a.self = a` and
declared type `"Foo"` at identity 0. -/
def cycHeap : Heap := ⟨[⟨.plain, [("self", .ref 0), ("type", .prim (.str "Foo"))], [], []⟩]⟩

/-- The store produced by saving the self-cycle under `shippedAbbrevs`. -/
def cycStore : StoreT :=
  [("K@@@keys", .str "self,type"), ("K@@@selfkeys", .str "type,pointer"),
   ("K@@@selftype", .str "storageReference"), ("K@@@selfpointer", .str "K@@@"),
   ("K@@@type", .str "Foo"), ("Kkeys", .str "type,pointer"),
   ("Ktype", .str "storageReference"), ("Kpointer", .str "K@@@")]

/-- The store produced by saving the self-cycle under the `type ↔ t` maps. -/
def cycStoreT : StoreT :=
  [("K@@@keys", .str "self,t"), ("K@@@selfkeys", .str "t,pointer"),
   ("K@@@selft", .str "storageReference"), ("K@@@selfpointer", .str "K@@@"),
   ("K@@@t", .str "Foo"), ("Kkeys", .str "t,pointer"),
   ("Kt", .str "storageReference"), ("Kpointer", .str "K@@@")]

/-- Heap holding `g = { x: s, y: s }` (identity 0) with the shared
instance `s = { v: 1, type: "Foo" }` (identity 1). -/
def sharedHeap : Heap :=
  ⟨[⟨.plain, [("x", .ref 1), ("y", .ref 1)], [], []⟩,
    ⟨.plain, [("v", .prim (.num 1)), ("type", .prim (.str "Foo"))], [], []⟩]⟩

/-- The store produced by saving `g` under `shippedAbbrevs`. -/
def sharedStore : StoreT :=
  [("Kkeys", .str "x,y,type"), ("Kx@@@keys", .str "v,type"),
   ("Kx@@@v", .num 1), ("Kx@@@type", .str "Foo"),
   ("Kxkeys", .str "type,pointer"), ("Kxtype", .str "storageReference"),
   ("Kxpointer", .str "Kx@@@"), ("Kykeys", .str "type,pointer"),
   ("Kytype", .str "storageReference"), ("Kypointer", .str "Kx@@@")]

/-- The store produced by saving `g` under the `type ↔ t` maps. -/
def sharedStoreT : StoreT :=
  [("Kkeys", .str "x,y,t"), ("Kx@@@keys", .str "v,t"),
   ("Kx@@@v", .num 1), ("Kx@@@t", .str "Foo"),
   ("Kxkeys", .str "t,pointer"), ("Kxt", .str "storageReference"),
   ("Kxpointer", .str "Kx@@@"), ("Kykeys", .str "t,pointer"),
   ("Kyt", .str "storageReference"), ("Kypointer", .str "Kx@@@")]

/-- Heap holding the Set `{ e1, 5 }` (identity 0) with `e1 = { a: 1 }`
(identity 1). -/
def setPairHeap : Heap :=
  ⟨[⟨.set, [], [.ref 1, .prim (.num 5)], []⟩,
    ⟨.plain, [("a", .prim (.num 1))], [], []⟩]⟩

/-- Heap holding a three-field record `{ a: x, b: y, c: z }` of primitives. -/
def recHeap (x y z : Prim) : Heap :=
  ⟨[⟨.plain, [("a", .prim x), ("b", .prim y), ("c", .prim z)], [], []⟩]⟩

/-- Load state whose object 0 holds a placeholder field `x` and whose
reference table has the placeholder's pointer `"P"` already resolved to
object 2 — the situation the completion sweep is documented to heal. -/
def sweepSt : LoadSt :=
  ⟨⟨[⟨.plain, [("x", .ref 1)], [], []⟩, mkPointerObj (.prim (.str "P")),
     ⟨.plain, [("done", .prim (.bool true))], [], []⟩]⟩,
   [(.prim (.str "P"), ⟨true, .ref 2⟩)]⟩

/-- A store holding a record with an unregistered type tag `"Ghost"`
under the `type ↔ t` key convention. -/
def ghostStore : StoreT :=
  [("Gt", .str "Ghost"), ("Gkeys", .str "u,t"), ("Gu", .num 7)]

/-- Like `fooCfgT` but with the otherwise-unregistered tag `"Ghost"`
registered with a blank (empty plain object) factory. -/
def ghostCfg : Config :=
  ⟨["Foo"], [("type", "t")], [("t", "type")],
   ("Ghost", emptyPlain) :: shippedRegistry, oneRand, []⟩

/-- A store holding a record tagged with the inherited `Object.prototype`
member name `"constructor"` (under the `type ↔ t` key convention). -/
def ctorStore : StoreT :=
  [("Ct", .str "constructor"), ("Ckeys", .str "u,t"), ("Cu", .num 7)]

/-- Shipped configuration with one failing store key `"K0keys"`. -/
def badArrCfg : Config :=
  ⟨[], shippedAbbrevs, shippedAbbrevsLoad, shippedRegistry, oneRand, ["K0keys"]⟩

/-- Shipped configuration with one failing store key `"Kvalue0keys"`. -/
def badMapCfg : Config :=
  ⟨[], shippedAbbrevs, shippedAbbrevsLoad, shippedRegistry, oneRand, ["Kvalue0keys"]⟩

/-- Shipped configuration with one failing store key `"Kf0keys"`. -/
def badFldCfg : Config :=
  ⟨[], shippedAbbrevs, shippedAbbrevsLoad, shippedRegistry, oneRand, ["Kf0keys"]⟩

/-- Heap holding the record `{f: [e1]}` (identity 0) with the Array
`[e1]` at identity 1 and `e1 = { a: 1 }` at identity 2. -/
def fldFailHeap : Heap :=
  ⟨[⟨.plain, [("f", .ref 1)], [], []⟩, ⟨.array, [], [.ref 2], []⟩,
    ⟨.plain, [("a", .prim (.num 1))], [], []⟩]⟩

/-- Heap holding the Array `[e1]` (identity 0) with `e1 = { a: 1 }`
(identity 1). -/
def arrFailHeap : Heap :=
  ⟨[⟨.array, [], [.ref 1], []⟩, ⟨.plain, [("a", .prim (.num 1))], [], []⟩]⟩

/-- Heap holding the Map `{1 ↦ e1, 2 ↦ 5}` (identity 0) with
`e1 = { a: 1 }` (identity 1). -/
def mapFailHeap : Heap :=
  ⟨[⟨.map, [], [], [(.prim (.num 1), .ref 1), (.prim (.num 2), .prim (.num 5))]⟩,
    ⟨.plain, [("a", .prim (.num 1))], [], []⟩]⟩

/-- A save outcome that is not a propagating exception. -/
def SRes.notErr : SRes → Prop
  | .err _ => False
  | _ => True

/-! ### Specification predicates -/

/-- Every entry present in the first reference table is present, with the
same `{isLoaded, value}` record, in the second: an entry is never removed,
never reverted to unresolved, and never re-resolved to a different value. -/
def entriesPreserved (a b : List (Val × LEntry)) : Prop :=
  ∀ p e, refsGet a p = some e → refsGet b p = some e

/-- `entriesPreserved` from `rs` to the reference table a load outcome
carries (vacuous on fuel exhaustion, which is not a program behavior). -/
def LRes.entriesFrom (rs : List (Val × LEntry)) : LRes → Prop
  | .ok _ s => entriesPreserved rs s.refs
  | .err s => entriesPreserved rs s.refs
  | .oot => True

/-- Heap evolution under the save engine: every pre-existing object is
either untouched or has had `instance.type = Save.getType(instance)`
applied to it (`tagObj`); no other mutation of existing objects occurs. -/
def taggedFrom (h h2 : Heap) : Prop :=
  ∀ i o, h.get i = some o → h2.get i = some o ∨ h2.get i = some (tagObj o)

/-- `taggedFrom` into the heap a save outcome carries. -/
def SRes.taggedOutcome (h : Heap) : SRes → Prop
  | .ok s => taggedFrom h s.heap
  | .err s => taggedFrom h s.heap
  | .oot => True

/-- The heap after saving the self-cycle: the instance itself (its
declared `type` re-assigned to the same value) plus the two placeholder
literals the save allocated. -/
def cycSaveHeap : Heap :=
  ⟨[⟨.plain, [("self", .ref 0), ("type", .prim (.str "Foo"))], [], []⟩,
    mkPointerObj (.prim (.str "K@@@")), mkPointerObj (.prim (.str "K@@@"))]⟩

/-- The heap after saving the shared-instance graph: `g` has gained an
own `type` property set to `undefined`, `s` kept its declared type, and
two placeholder literals were allocated. -/
def sharedSaveHeap : Heap :=
  ⟨[⟨.plain, [("x", .ref 1), ("y", .ref 1), ("type", .undefined)], [], []⟩,
    ⟨.plain, [("v", .prim (.num 1)), ("type", .prim (.str "Foo"))], [], []⟩,
    mkPointerObj (.prim (.str "Kx@@@")), mkPointerObj (.prim (.str "Kx@@@"))]⟩

end DataStorage

namespace DataStorage

set_option maxRecDepth 4000

/-! ### Unfolding equations for the fuel-indexed runners -/

theorem saveRun_succ (cfg : Config) (n : Nat) :
    saveRun cfg (n + 1) = saveStep cfg (saveRun cfg n) := rfl

theorem loadRun_succ (cfg : Config) (store : StoreT) (n : Nat) :
    loadRun cfg store (n + 1) = loadStep cfg store (loadRun cfg store n) (sweepRun n) := rfl

theorem sweepRun_succ (n : Nat) : sweepRun (n + 1) = sweepStep (sweepRun n) := rfl

theorem saveRun_zero (cfg : Config) (c : SCall) (s : SaveSt) : saveRun cfg 0 c s = .oot := rfl

theorem loadRun_zero (cfg : Config) (store : StoreT) (c : LCall) (s : LoadSt) :
    loadRun cfg store 0 c s = .oot := rfl

theorem sweepRun_zero (c : WCall) (s : LoadSt) : sweepRun 0 c s = none := rfl

/-! ### The `getKeys(_, false)` conjunction bug and the sweep -/

/-- `Save.getKeys(instance, false)` always returns `[]`: the source
condition is `(filter && !ignoreProperties.has(prop)) && ...`, which is
false whenever `filter` is false, so no property is ever pushed. -/
theorem getKeys_false (h : Heap) (i : Nat) : getKeys h i false = [] := by
  unfold getKeys
  cases h.get i <;> simp

/-- Consequently the completion sweep returns its input state unchanged
on every argument (given any fuel at all): the `keys.length <= 0` early
return always fires before any placeholder check or recursion. -/
theorem sweep_noop (fuel : Nat) (v : Val) (parent : Option (Nat × String)) (s : LoadSt) :
    completeMissingProperties (fuel + 1) v parent s = some s := by
  cases v <;>
    simp [completeMissingProperties, sweepRun_succ, sweepStep, getKeys_false]

end DataStorage

namespace DataStorage

/-! ### Claim theorems settled by concrete evaluation -/

/-- C7 — Saving `null`/absent writes nothing and leaves the state
untouched; loading a key at which neither a type tag, nor a keys list,
nor a value was ever written returns `undefined` (absent), not an error
(the fallthrough reads the bare key and returns its absent value). -/
theorem nullSaveNoOpAbsentLoad :
    (∀ (cfg : Config) (fuel : Nat) (key : String) (ca ra : Bool) (s : SaveSt),
      saveInstance cfg (fuel + 1) .null key ca ra s = .ok s ∧
      saveInstance cfg (fuel + 1) .undefined key ca ra s = .ok s) ∧
    (∀ (cfg : Config) (fuel : Nat) (key : String) (store : StoreT) (s : LoadSt),
      storeGet store (key ++ "t") = none →
      storeGet store (key ++ "keys") = none →
      storeGet store key = none →
      loadInstance cfg (fuel + 1) key true store s
        = .ok .undefined ⟨(s.heap.alloc emptyPlain).1, s.refs⟩) := by
  constructor
  · intro cfg fuel key ca ra s
    exact ⟨rfl, rfl⟩
  · intro cfg fuel key store s h1 h2 h3
    simp [loadInstance, loadRun_succ, loadStep, h1, h2, h3, valOf, jsTruthy, readKeys]

/-- C7 witness: a concrete never-written key on a non-empty store. -/
theorem nullSaveNoOpAbsentLoadWitness :
    loadInstance shippedCfg 4 "NEVER" true [("other", .num 1)] ⟨emptyHeap, []⟩
      = .ok .undefined ⟨⟨[emptyPlain]⟩, []⟩ := by
  exact nullSaveNoOpAbsentLoad.2 shippedCfg 3 "NEVER" [("other", .num 1)] ⟨emptyHeap, []⟩
    (by decide) (by decide) (by decide)

end DataStorage

namespace DataStorage

/-- C1 — Round-trip is broken for the built-in collections: the Set
encoder writes its type tag under `saveKey ++ "type"` and writes no keys
list, while the loader looks for the tag at `loadKey ++ "t"` and for a
keys list at `loadKey ++ "keys"`; a saved `Set {1}` therefore reloads as
`undefined`.  Primitives do round-trip (third conjunct). -/
theorem setRoundTripBroken :
    saveInstance shippedCfg 20 (.ref 0) "K" true true ⟨setHeap, [], [], 0⟩
      = .ok ⟨⟨[⟨.set, [("type", .prim (.str "Set"))], [.prim (.num 1)], []⟩]⟩, setStore, [], 0⟩ ∧
    (loadInstance shippedCfg 20 "K" true setStore ⟨emptyHeap, []⟩).retVal = some .undefined ∧
    (∀ p : Prim,
      saveInstance shippedCfg 3 (.prim p) "P" true true ⟨emptyHeap, [], [], 0⟩
        = .ok ⟨emptyHeap, [("P", p)], [], 0⟩ ∧
      loadInstance shippedCfg 3 "P" true [("P", p)] ⟨emptyHeap, []⟩
        = .ok (.prim p) ⟨⟨[emptyPlain]⟩, []⟩) := by
  refine ⟨by decide, by decide, fun p => ⟨rfl, rfl⟩⟩

/-- C2 — Saving the self-referencing instance `a` (type `"Foo"`
registered for reference-based storage) terminates normally with exactly
eight store entries.  Loading is broken twice over: under the shipped
abbreviation maps the loader never sees the type tag (written at
`...type`, read at `...t`), so it returns the raw two-field placeholder
record with `b.self` undefined; with the `type ↔ t` abbreviation the
reference decoder does run, but the completion sweep is a no-op, so
`b.self` remains a dangling placeholder object (`ref 1`), not `b`
(`ref 0`) itself. -/
theorem selfCycleSaveTerminatesLoadBroken :
    saveInstance fooCfg 20 (.ref 0) "K" true true ⟨cycHeap, [], [], 0⟩
      = .ok ⟨cycSaveHeap, cycStore, [(0, "K@@@")], 1⟩ ∧
    ((loadInstance fooCfg 20 "K" true cycStore ⟨emptyHeap, []⟩).propOf "self" = some .undefined ∧
     (loadInstance fooCfg 20 "K" true cycStore ⟨emptyHeap, []⟩).propOf "type"
        = some (.prim (.str "storageReference"))) ∧
    ((loadInstance fooCfgT 30 "K" true cycStoreT ⟨emptyHeap, []⟩).retVal = some (.ref 0) ∧
     (loadInstance fooCfgT 30 "K" true cycStoreT ⟨emptyHeap, []⟩).propOf "self" = some (.ref 1) ∧
     (loadInstance fooCfgT 30 "K" true cycStoreT ⟨emptyHeap, []⟩).heapOf.bind (fun h => h.get 1)
        = some (mkPointerObj (.prim (.str "K@@@")))) := by
  refine ⟨by decide, ⟨by decide, by decide⟩, by decide, by decide, by decide⟩

/-- C3 — Saving the graph `g = {x: s, y: s}` writes the full subgraph of
`s` exactly once, under the single pointer key `"Kx@@@"` minted at the
first encounter and looked up from `savedStorageReferences` at the
second (`savedRefs = [(1, "Kx@@@")]`; both `Kxpointer` and `Kypointer`
hold it), with reference placeholders at both paths.  Loading under the
shipped maps, however, yields two *distinct* placeholder records
(`ref 1` and `ref 4`), not one shared instance; with the `type ↔ t`
abbreviation both fields do come back as the same reconstructed object. -/
theorem dedupSaveOnceLoadAliasBroken :
    saveInstance fooCfg 25 (.ref 0) "K" true true ⟨sharedHeap, [], [], 0⟩
      = .ok ⟨sharedSaveHeap, sharedStore, [(1, "Kx@@@")], 1⟩ ∧
    ((loadInstance fooCfg 25 "K" true sharedStore ⟨emptyHeap, []⟩).propOf "x" = some (.ref 1) ∧
     (loadInstance fooCfg 25 "K" true sharedStore ⟨emptyHeap, []⟩).propOf "y" = some (.ref 4) ∧
     (Val.ref 1) ≠ (Val.ref 4)) ∧
    ((loadInstance fooCfgT 30 "K" true sharedStoreT ⟨emptyHeap, []⟩).propOf "x" = some (.ref 1) ∧
     (loadInstance fooCfgT 30 "K" true sharedStoreT ⟨emptyHeap, []⟩).propOf "y" = some (.ref 1) ∧
     (loadInstance fooCfgT 30 "K" true sharedStoreT ⟨emptyHeap, []⟩).heapOf.bind (fun h => h.get 1)
        = some ⟨.plain, [("v", .prim (.num 1)), ("type", .prim (.str "Foo"))], [], []⟩) := by
  refine ⟨by decide, ⟨by decide, by decide, by decide⟩, by decide, by decide, by decide⟩

/-- C4 counterexample — In the Set encoder all element saves share one
`try` block: when saving the first element fails (its keys-list write
hits the failing key `"Kitem0keys"`), the thrown error aborts the loop
before the second element is ever written, so the sibling element `5` is
missing from the store (`"Kitem1"` was never written). -/
theorem setFieldFailureAbortsSiblings :
    (saveInstance badItemCfg 20 (.ref 0) "K" true true ⟨setPairHeap, [], [], 0⟩).storeOf
      = some [("Ktype", .str "Set"), ("Ksize", .num 2)] ∧
    storeGet [("Ktype", Prim.str "Set"), ("Ksize", .num 2)] "Kitem1" = none := by
  exact ⟨by decide, by decide⟩

/-- The default per-field save loop (`catching = true`, lines 191-203)
never raises: every outcome of each field's recursive save, error
included, is handled inside that field's own `try` and the loop
continues.  By induction on fuel. -/
theorem saveProps_catching_notErr (cfg : Config) :
    ∀ (fuel i : Nat) (ks : List String) (baseKey : String) (s : SaveSt),
      (saveRun cfg fuel (.props i ks baseKey true) s).notErr := by
  intro fuel
  induction fuel with
  | zero =>
    intro i ks baseKey s
    exact trivial
  | succ n ih =>
    intro i ks baseKey s
    rw [saveRun_succ]
    cases ks with
    | nil => exact trivial
    | cons k ks =>
      simp only [saveStep]
      split
      · exact ih _ _ _ _
      · simp only [if_true]
        exact ih _ _ _ _
      · exact trivial

set_option maxHeartbeats 8000000 in
/-- C4 amended — The per-field isolation holds exactly for the
default-encoded field loop: universally (every configuration, instance,
field list, state and fuel) the loop never raises, each field's failure
being caught at that field's own write (first conjunct); concretely,
with the write of field `b` failing the siblings `a`/`c` save and
reload correctly while `b` reloads as `undefined` (second conjunct).
The rest of the claim fails: a failed field is *not* always absent on
reload — an Array-valued field `f` whose element save fails leaves the
partial entry `"Kfkeys" = "length,type"` behind, so `f` reloads as a
junk record `{length: undefined, type: undefined}` (third conjunct);
the Array encoder's element loop has no `try`, so an element failure
propagates out of the whole save of the array itself (fourth conjunct);
and the Map encoder catches only at container level, so one failing
entry write aborts all remaining entry writes (fifth conjunct; the Set
encoder behaves likewise, see the counterexample). -/
theorem recordFieldFailureIsolation :
    (∀ (cfg : Config) (fuel i : Nat) (ks : List String) (baseKey : String) (s : SaveSt),
      (saveProps cfg fuel i ks baseKey true s).notErr) ∧
    (∀ x y z : Prim,
      saveInstance badBCfg 8 (.ref 0) "K" true true ⟨recHeap x y z, [], [], 0⟩
        = .ok ⟨⟨[⟨.plain, [("a", .prim x), ("b", .prim y), ("c", .prim z), ("type", .undefined)],
                  [], []⟩]⟩,
               [("Kkeys", .str "a,b,c,type"), ("Ka", x), ("Kc", z)], [], 0⟩ ∧
      loadInstance badBCfg 8 "K" true [("Kkeys", .str "a,b,c,type"), ("Ka", x), ("Kc", z)]
          ⟨emptyHeap, []⟩
        = .ok (.ref 0)
            ⟨⟨[⟨.plain, [("a", .prim x), ("b", .undefined), ("c", .prim z), ("type", .undefined)],
                [], []⟩, emptyPlain, emptyPlain, emptyPlain, emptyPlain]⟩, []⟩) ∧
    (saveInstance badFldCfg 20 (.ref 0) "K" true true ⟨fldFailHeap, [], [], 0⟩
        = .ok ⟨⟨[⟨.plain, [("f", .ref 1), ("type", .undefined)], [], []⟩,
                 ⟨.array, [("type", .prim (.str "Array"))], [.ref 2], []⟩,
                 ⟨.plain, [("a", .prim (.num 1)), ("type", .undefined)], [], []⟩]⟩,
               [("Kkeys", .str "f,type"), ("Kfkeys", .str "length,type")], [], 0⟩ ∧
     (loadInstance badFldCfg 20 "K" true
          [("Kkeys", .str "f,type"), ("Kfkeys", .str "length,type")] ⟨emptyHeap, []⟩).propOf "f"
        = some (.ref 1) ∧
     (loadInstance badFldCfg 20 "K" true
          [("Kkeys", .str "f,type"), ("Kfkeys", .str "length,type")] ⟨emptyHeap, []⟩).heapOf.bind
          (fun h => h.get 1)
        = some ⟨.plain, [("length", .undefined), ("type", .undefined)], [], []⟩) ∧
    saveInstance badArrCfg 20 (.ref 0) "K" true true ⟨arrFailHeap, [], [], 0⟩
      = .err ⟨⟨[⟨.array, [("type", .prim (.str "Array"))], [.ref 1], []⟩,
                ⟨.plain, [("a", .prim (.num 1)), ("type", .undefined)], [], []⟩]⟩,
              [("Kkeys", .str "length,type")], [], 0⟩ ∧
    (saveInstance badMapCfg 20 (.ref 0) "K" true true ⟨mapFailHeap, [], [], 0⟩
        = .ok ⟨⟨[⟨.map, [("type", .prim (.str "Map"))], [],
                  [(.prim (.num 1), .ref 1), (.prim (.num 2), .prim (.num 5))]⟩,
                 ⟨.plain, [("a", .prim (.num 1)), ("type", .undefined)], [], []⟩]⟩,
               [("Ktype", .str "Map"), ("Ksize", .num 2), ("Kkey0", .num 1)], [], 0⟩ ∧
     storeGet [("Ktype", Prim.str "Map"), ("Ksize", .num 2), ("Kkey0", .num 1)] "Kvalue0" = none ∧
     storeGet [("Ktype", Prim.str "Map"), ("Ksize", .num 2), ("Kkey0", .num 1)] "Kkey1" = none) := by
  refine ⟨saveProps_catching_notErr, fun x y z => ⟨rfl, rfl⟩,
    ⟨by decide, by decide, by decide⟩, by decide, by decide, by decide, by decide⟩

/-- C6 — The completion sweep replaces nothing: object 0 holds a
placeholder field `x` whose pointer `"P"` is *resolved* in the load-side
table (to object 2), yet the sweep returns the state unchanged, because
`Save.getKeys(instance, false)` always returns `[]` (the
`filter && !ignore.has(prop)` conjunction swallows `filter = false`), so
the sweep's early `keys.length <= 0` return always fires. -/
theorem completionSweepNoOp :
    completeMissingProperties 40 (.ref 0) none sweepSt = some sweepSt ∧
    (sweepSt.heap.get 0).map (fun o => o.getProp "x") = some (.ref 1) ∧
    (sweepSt.heap.get 1).map (fun o => o.getProp "type")
        = some (.prim (.str "storageReference")) ∧
    (sweepSt.heap.get 1).map (fun o => o.getProp "pointer") = some (.prim (.str "P")) ∧
    refsGet sweepSt.refs (.prim (.str "P")) = some ⟨true, .ref 2⟩ := by
  refine ⟨by decide, by decide, by decide, by decide, by decide⟩

/-- C9 counterexample — The field name `"abbreviation"` is unregistered
on the save side (it passes through abbreviation unchanged), but on load
the expansion map rewrites it to `"property"`: an unregistered name is
*not* recovered identically. -/
theorem shortCodeFieldRenamedOnLoad :
    lookupStr shippedAbbrevs "abbreviation" = none ∧
    abbrevSave shippedCfg "abbreviation" = "abbreviation" ∧
    expandLoad shippedCfg "abbreviation" = "property" ∧
    "property" ≠ "abbreviation" := by
  refine ⟨by decide, by decide, by decide, by decide⟩

/-- C9 amended — For every name registered in the save-side table,
expansion inverts abbreviation; a name in *neither* table passes through
both directions unchanged; but a field name that collides with a
registered short code (here `"abbreviation"`) is rewritten to the
corresponding full name on load. -/
theorem abbrevInvertibilityAmended :
    (∀ n s, lookupStr shippedAbbrevs n = some s → expandLoad shippedCfg s = n) ∧
    (∀ n, lookupStr shippedAbbrevs n = none → abbrevSave shippedCfg n = n) ∧
    (∀ n, lookupStr shippedAbbrevsLoad n = none → expandLoad shippedCfg n = n) ∧
    expandLoad shippedCfg (abbrevSave shippedCfg "abbreviation") = "property" := by
  refine ⟨?_, ?_, ?_, by decide⟩
  · intro n s h
    simp only [shippedAbbrevs, lookupStr] at h
    split at h
    · next heq =>
      cases h
      have : "property" = n := by simpa using heq
      subst this
      decide
    · exact absurd h (by simp)
  · intro n h
    simp only [shippedAbbrevs, lookupStr] at h
    simp only [abbrevSave, shippedCfg, shippedAbbrevs, lookupStr]
    split at h
    · exact absurd h (by simp)
    · next hne =>
      simp only [hne]
      rfl
  · intro n h
    simp only [shippedAbbrevsLoad, lookupStr] at h
    simp only [expandLoad, shippedCfg, shippedAbbrevsLoad, lookupStr]
    split at h
    · exact absurd h (by simp)
    · next hne =>
      simp only [hne]
      rfl

/-- C9 witness: the registered pair inverts, an unmapped name passes
through both sides. -/
theorem abbrevInvertibilityAmendedWitness :
    expandLoad shippedCfg "abbreviation" = "property" ∧
    abbrevSave shippedCfg "x" = "x" ∧
    expandLoad shippedCfg "x" = "x" := by
  exact ⟨abbrevInvertibilityAmended.1 "property" "abbreviation" (by decide),
         abbrevInvertibilityAmended.2.1 "x" (by decide),
         abbrevInvertibilityAmended.2.2.1 "x" (by decide)⟩

end DataStorage

namespace DataStorage

/-! ### Heap and object lemmas for the save-side frame property -/

theorem kind_setProp (o : Obj) (k : String) (v : Val) : (o.setProp k v).kind = o.kind := by
  unfold Obj.setProp
  repeat' split
  all_goals rfl

theorem lookupField_setField (fs : List (String × Val)) (k : String) (v : Val) :
    lookupField (setField fs k v) k = some v := by
  induction fs with
  | nil => simp [setField, lookupField]
  | cons e rest ih =>
    cases heq : (e.1 == k) <;> simp [setField, lookupField, heq, ih]

theorem setField_setField (fs : List (String × Val)) (k : String) (v w : Val) :
    setField (setField fs k v) k w = setField fs k w := by
  induction fs with
  | nil => simp [setField]
  | cons e rest ih =>
    cases heq : (e.1 == k) <;> simp [setField, heq, ih]

theorem parseNat_type : parseNat "type" = none := by decide

theorem decodeIdx_type (len : Nat) : decodeIdx len "type" = none := by
  unfold decodeIdx
  rw [parseNat_type]

theorem getProp_setProp_type (o : Obj) (v : Val) :
    (o.setProp "type" v).getProp "type" = v := by
  unfold Obj.setProp Obj.getProp
  cases o.kind <;>
    simp [decodeIdx_type, lookupField_setField, show ("type" == "length") = false from rfl]

theorem setProp_setProp_type (o : Obj) (v w : Val) :
    (o.setProp "type" v).setProp "type" w = o.setProp "type" w := by
  unfold Obj.setProp
  cases o <;> rename_i kd fs es ps <;> cases kd <;>
    simp [decodeIdx_type, setField_setField, show ("type" == "length") = false from rfl]

theorem getTypeVal_tagObj (o : Obj) : getTypeVal (tagObj o) = getTypeVal o := by
  have hk : (tagObj o).kind = o.kind := kind_setProp o "type" (getTypeVal o)
  unfold getTypeVal
  rw [hk]
  cases hkind : o.kind <;> simp only [hkind] <;> try rfl
  rw [show tagObj o = o.setProp "type" (getTypeVal o) from rfl, getProp_setProp_type]
  unfold getTypeVal
  rw [hkind]

theorem tagObj_idem (o : Obj) : tagObj (tagObj o) = tagObj o := by
  show (tagObj o).setProp "type" (getTypeVal (tagObj o)) = tagObj o
  rw [getTypeVal_tagObj]
  show (o.setProp "type" (getTypeVal o)).setProp "type" (getTypeVal o) = _
  rw [setProp_setProp_type]
  rfl

end DataStorage
namespace DataStorage

theorem getQ_lt {α : Type} (l : List α) (i : Nat) (a : α) (h : l[i]? = some a) :
    i < l.length := by
  by_contra hn
  rw [List.getElem?_eq_none (Nat.le_of_not_lt hn)] at h
  cases h

theorem Heap.get_lt (h : Heap) (i : Nat) (o : Obj) (hg : h.get i = some o) :
    i < h.objs.length :=
  getQ_lt h.objs i o hg

theorem Heap.get_set_eq (h : Heap) (i : Nat) (o o' : Obj) (hg : h.get i = some o') :
    (h.set i o).get i = some o := by
  have hlt := Heap.get_lt h i o' hg
  unfold Heap.get Heap.set
  simp [List.getElem?_set, hlt]

theorem Heap.get_set_ne (h : Heap) (i j : Nat) (o : Obj) (hne : j ≠ i) :
    (h.set i o).get j = h.get j := by
  unfold Heap.get Heap.set
  simp [List.getElem?_set, Ne.symm hne]

theorem Heap.get_alloc (h : Heap) (o : Obj) (j : Nat) (o' : Obj) (hg : h.get j = some o') :
    (h.alloc o).1.get j = some o' := by
  have hlt := Heap.get_lt h j o' hg
  unfold Heap.get Heap.alloc at *
  simpa [List.getElem?_append, hlt] using hg

theorem taggedFrom_refl (h : Heap) : taggedFrom h h := fun _ _ hg => Or.inl hg

theorem taggedFrom_trans {h1 h2 h3 : Heap} (a : taggedFrom h1 h2) (b : taggedFrom h2 h3) :
    taggedFrom h1 h3 := by
  intro i o hg
  rcases a i o hg with hh | hh
  · exact b i o hh
  · rcases b i (tagObj o) hh with h2' | h2'
    · exact Or.inr h2'
    · rw [tagObj_idem] at h2'
      exact Or.inr h2'

theorem taggedFrom_alloc (h : Heap) (o : Obj) : taggedFrom h (h.alloc o).1 := by
  intro i o' hg
  exact Or.inl (Heap.get_alloc h o i o' hg)

theorem taggedFrom_set_tag (h : Heap) (i : Nat) (o : Obj) (hg : h.get i = some o) :
    taggedFrom h (h.set i (tagObj o)) := by
  intro j o' hg'
  by_cases hji : j = i
  · subst hji
    rw [hg] at hg'
    cases hg'
    exact Or.inr (Heap.get_set_eq h j (tagObj o) o hg)
  · rw [Heap.get_set_ne h i j (tagObj o) hji]
    exact Or.inl hg'

theorem taggedOutcome_mono {h1 h2 : Heap} {r : SRes} (hf : taggedFrom h1 h2)
    (hr : r.taggedOutcome h2) : r.taggedOutcome h1 := by
  cases r with
  | ok s => exact taggedFrom_trans hf hr
  | err s => exact taggedFrom_trans hf hr
  | oot => trivial

theorem taggedOutcome_catch {h : Heap} {r : SRes} (hr : r.taggedOutcome h) :
    (match r with | .err s2 => SRes.ok s2 | r => r).taggedOutcome h := by
  cases r with
  | ok s => exact hr
  | err s => exact hr
  | oot => trivial

end DataStorage

namespace DataStorage

/-- After the line-139 tagging, the rest of a `saveInstance` body only
ever tags further objects or allocates fresh ones: the outcome's heap is
`taggedFrom` the already-tagged heap. -/
theorem saveStep_tagged_ref (cfg : Config) (rec : SCall → SaveSt → SRes)
    (hrec : ∀ c s, (rec c s).taggedOutcome s.heap)
    (i : Nat) (key : String) (ca ra : Bool) (s : SaveSt) (o : Obj)
    (hg : s.heap.get i = some o) :
    (saveStep cfg rec (.inst (.ref i) key ca ra) s).taggedOutcome
      (s.heap.set i (tagObj o)) := by
  simp only [saveStep]
  rw [hg]
  simp only []
  split
  · -- reference-based branch
    split
    · -- pointer already minted: alloc a placeholder, save it at the key
      exact taggedOutcome_mono (taggedFrom_alloc _ _) (hrec _ _)
    · -- fresh pointer: save the full object there, then the placeholder
      split
      · next s3 heq =>
        have h1 := hrec (.inst (.ref i)
          (key ++ cfg.rand s.ctr) true false)
          { s with heap := s.heap.set i (tagObj o),
                   savedRefs := (i, key ++ cfg.rand s.ctr) :: s.savedRefs, ctr := s.ctr + 1 }
        rw [heq] at h1
        exact taggedOutcome_mono (taggedFrom_trans h1 (taggedFrom_alloc _ _)) (hrec _ _)
      · -- exception or fuel exhaustion from the nested save propagates
        exact hrec _ _
  · split
    · -- custom encoder
      exact hrec _ _
    · -- default encoding: unguarded keys write, then the field loop
      split
      · exact taggedFrom_refl _
      · exact hrec _ _

end DataStorage

namespace DataStorage

/-- One save step only tags existing objects (or allocates new ones),
given that the nested calls do. -/
theorem saveStep_tagged (cfg : Config) (rec : SCall → SaveSt → SRes)
    (hrec : ∀ c s, (rec c s).taggedOutcome s.heap) (c : SCall) (s : SaveSt) :
    (saveStep cfg rec c s).taggedOutcome s.heap := by
  cases c with
  | inst v key ca ra =>
    cases v with
    | undefined => exact taggedFrom_refl _
    | null => exact taggedFrom_refl _
    | prim p =>
      simp only [saveStep]
      cases setDynamicProperty cfg key (.prim p) s.store with
      | some st => exact taggedFrom_refl _
      | none => exact taggedFrom_refl _
    | ref i =>
      cases hg : s.heap.get i with
      | none =>
        simp only [saveStep]
        rw [hg]
        exact taggedFrom_refl _
      | some o =>
        exact taggedOutcome_mono (taggedFrom_set_tag s.heap i o hg)
          (saveStep_tagged_ref cfg rec hrec i key ca ra s o hg)
  | props i ks baseKey catching =>
    cases ks with
    | nil => exact taggedFrom_refl _
    | cons k rest =>
      simp only [saveStep]
      split
      · next s2 heq =>
        have h1 := hrec (.inst (match s.heap.get i with
          | some o => o.getProp k
          | none => .undefined) (baseKey ++ abbrevSave cfg k) true true) s
        rw [heq] at h1
        exact taggedOutcome_mono h1 (hrec _ _)
      · next s2 heq =>
        have h1 := hrec (.inst (match s.heap.get i with
          | some o => o.getProp k
          | none => .undefined) (baseKey ++ abbrevSave cfg k) true true) s
        rw [heq] at h1
        split
        · exact taggedOutcome_mono h1 (hrec _ _)
        · exact h1
      · trivial
  | custom i key =>
    simp only [saveStep]
    split
    · -- Array: the keys-list write keeps the heap either way
      split
      · exact hrec _ _
      · exact hrec _ _
    · split
      · -- Set: the whole chain is wrapped in the shared try
        apply taggedOutcome_catch
        split
        · exact taggedFrom_refl _
        · split
          · exact taggedFrom_refl _
          · split
            · exact taggedFrom_refl _
            · split
              · exact taggedFrom_refl _
              · exact hrec _ _
      · split
        · -- Map: same structure
          apply taggedOutcome_catch
          split
          · exact taggedFrom_refl _
          · split
            · exact taggedFrom_refl _
            · split
              · exact taggedFrom_refl _
              · split
                · exact taggedFrom_refl _
                · exact hrec _ _
        · -- default: back into saveInstance
          exact hrec _ _
  | items vs key idx =>
    cases vs with
    | nil => exact taggedFrom_refl _
    | cons v rest =>
      simp only [saveStep]
      split
      · next s2 heq =>
        have h1 := hrec (.inst v (key ++ "item" ++ toString idx) true true) s
        rw [heq] at h1
        exact taggedOutcome_mono h1 (hrec _ _)
      · -- error or fuel-out propagates
        exact hrec _ _
  | pairs es key idx =>
    cases es with
    | nil => exact taggedFrom_refl _
    | cons e rest =>
      simp only [saveStep]
      split
      · next s2 heq =>
        have h1 := hrec (.inst e.1 (key ++ "key" ++ toString idx) true true) s
        rw [heq] at h1
        split
        · next s3 heq2 =>
          have h2 := hrec (.inst e.2 (key ++ "value" ++ toString idx) true true) s2
          rw [heq2] at h2
          exact taggedOutcome_mono (taggedFrom_trans h1 h2) (hrec _ _)
        · next =>
          have h2 := hrec (.inst e.2 (key ++ "value" ++ toString idx) true true) s2
          exact taggedOutcome_mono h1 h2
      · exact hrec _ _

/-- Over any fuel, a save run only tags existing objects or allocates
new ones. -/
theorem saveRun_tagged (cfg : Config) :
    ∀ (fuel : Nat) (c : SCall) (s : SaveSt), (saveRun cfg fuel c s).taggedOutcome s.heap := by
  intro fuel
  induction fuel with
  | zero => intro c s; trivial
  | succ n ih =>
    intro c s
    rw [saveRun_succ]
    exact saveStep_tagged cfg (saveRun cfg n) ih c s

end DataStorage

namespace DataStorage

theorem setField_append (fs : List (String × Val)) (k : String) (v : Val)
    (h : lookupField fs k = none) : setField fs k v = fs ++ [(k, v)] := by
  induction fs with
  | nil => simp [setField]
  | cons e rest ih =>
    cases heq : (e.1 == k) with
    | true =>
      rw [lookupField, heq] at h
      cases h
    | false =>
      rw [lookupField, heq] at h
      simp only [setField, heq, Bool.false_eq_true, if_false]
      rw [ih h]
      simp

/-- C10 — For every non-null, non-primitive argument `ref i`,
`Save.saveInstance` assigns `instance.type = Save.getType(instance)`
before anything else: whatever the configuration and the store (all
writes may even fail, the run may end in an exception), the final heap
holds the tagged object at `i`.  Arrays/Maps/Sets thereby acquire an own
`type` property `"Array"`/`"Map"`/`"Set"`, and a plain object with no
prior `type` field gains an own `type` property set to `undefined`. -/
theorem saveTagsInstance :
    (∀ (cfg : Config) (fuel : Nat) (i : Nat) (key : String) (ca ra : Bool) (s : SaveSt)
        (o : Obj) (h2 : Heap),
      s.heap.get i = some o →
      (saveInstance cfg (fuel + 1) (.ref i) key ca ra s).heapOf = some h2 →
      h2.get i = some (tagObj o)) ∧
    (∀ o : Obj, o.kind = .array → (tagObj o).getProp "type" = .prim (.str "Array")) ∧
    (∀ o : Obj, o.kind = .map → (tagObj o).getProp "type" = .prim (.str "Map")) ∧
    (∀ o : Obj, o.kind = .set → (tagObj o).getProp "type" = .prim (.str "Set")) ∧
    (∀ o : Obj, o.kind = .plain → lookupField o.fields "type" = none →
      tagObj o = ⟨.plain, o.fields ++ [("type", .undefined)], o.elems, o.pairs⟩) := by
  refine ⟨?_, ?_, ?_, ?_, ?_⟩
  · intro cfg fuel i key ca ra s o h2 hg hres
    have hb : saveInstance cfg (fuel + 1) (.ref i) key ca ra s
        = saveStep cfg (saveRun cfg fuel) (.inst (.ref i) key ca ra) s := rfl
    have hstep := saveStep_tagged_ref cfg (saveRun cfg fuel) (saveRun_tagged cfg fuel)
      i key ca ra s o hg
    rw [hb] at hres
    have hgi : (s.heap.set i (tagObj o)).get i = some (tagObj o) :=
      Heap.get_set_eq s.heap i (tagObj o) o hg
    cases hr : saveStep cfg (saveRun cfg fuel) (.inst (.ref i) key ca ra) s with
    | oot => rw [hr] at hres; cases hres
    | ok s2 =>
      rw [hr] at hres hstep
      cases hres
      rcases hstep i (tagObj o) hgi with hh | hh
      · exact hh
      · rw [tagObj_idem] at hh
        exact hh
    | err s2 =>
      rw [hr] at hres hstep
      cases hres
      rcases hstep i (tagObj o) hgi with hh | hh
      · exact hh
      · rw [tagObj_idem] at hh
        exact hh
  · intro o hk
    have h1 : getTypeVal o = .prim (.str "Array") := by
      unfold getTypeVal
      rw [hk]
    rw [show tagObj o = o.setProp "type" (getTypeVal o) from rfl, h1, getProp_setProp_type]
  · intro o hk
    have h1 : getTypeVal o = .prim (.str "Map") := by
      unfold getTypeVal
      rw [hk]
    rw [show tagObj o = o.setProp "type" (getTypeVal o) from rfl, h1, getProp_setProp_type]
  · intro o hk
    have h1 : getTypeVal o = .prim (.str "Set") := by
      unfold getTypeVal
      rw [hk]
    rw [show tagObj o = o.setProp "type" (getTypeVal o) from rfl, h1, getProp_setProp_type]
  · intro o hk hl
    have h1 : getTypeVal o = .undefined := by
      unfold getTypeVal Obj.getProp
      simp [hk, hl]
    have h2 : tagObj o = { o with fields := setField o.fields "type" .undefined } := by
      unfold tagObj Obj.setProp
      rw [h1, hk]
    rw [h2, setField_append o.fields "type" .undefined hl]
    cases o
    simp only at hk
    rw [hk]

/-- C10 witness: saving the three-field record tags it in place. -/
theorem saveTagsInstanceWitness :
    Heap.get ⟨[⟨.plain, [("a", .prim (.num 1)), ("b", .prim (.num 2)), ("c", .prim (.num 3)),
        ("type", .undefined)], [], []⟩]⟩ 0
      = some (tagObj ⟨.plain,
          [("a", .prim (.num 1)), ("b", .prim (.num 2)), ("c", .prim (.num 3))], [], []⟩) := by
  have h := saveTagsInstance.1 shippedCfg 9 0 "K" true true
    ⟨recHeap (.num 1) (.num 2) (.num 3), [], [], 0⟩
    ⟨.plain, [("a", .prim (.num 1)), ("b", .prim (.num 2)), ("c", .prim (.num 3))], [], []⟩
    ⟨[⟨.plain, [("a", .prim (.num 1)), ("b", .prim (.num 2)), ("c", .prim (.num 3)),
        ("type", .undefined)], [], []⟩]⟩
    (by decide) (by decide)
  exact h

end DataStorage

namespace DataStorage

theorem refsGet_refsSet (rs : List (Val × LEntry)) (p : Val) (e : LEntry) (q : Val) :
    refsGet (refsSet rs p e) q = if q = p then some e else refsGet rs q := by
  induction rs with
  | nil =>
    simp only [refsSet, refsGet, beq_iff_eq]
    by_cases h : q = p
    · subst h
      simp
    · rw [if_neg (fun hc => h (Eq.symm hc)), if_neg h]
  | cons hd tl ih =>
    simp only [refsSet, beq_iff_eq]
    by_cases hhd : hd.1 = p
    · rw [if_pos hhd]
      simp only [refsGet, beq_iff_eq]
      by_cases h : q = p
      · subst h
        simp
      · rw [if_neg (fun hc => h (Eq.symm hc)), if_neg h, hhd,
           if_neg (fun hc => h (Eq.symm hc))]
    · rw [if_neg hhd]
      simp only [refsGet, beq_iff_eq, ih]
      by_cases hq : hd.1 = q
      · have hqp : ¬(q = p) := fun hc => hhd (Eq.trans hq hc)
        rw [if_pos hq, if_neg hqp, if_pos hq]
      · rw [if_neg hq, if_neg hq]

theorem entriesPreserved_refl (rs : List (Val × LEntry)) : entriesPreserved rs rs :=
  fun _ _ h => h

theorem entriesPreserved_trans {a b c : List (Val × LEntry)}
    (h1 : entriesPreserved a b) (h2 : entriesPreserved b c) : entriesPreserved a c :=
  fun p e h => h2 p e (h1 p e h)

theorem entriesPreserved_set_absent (rs : List (Val × LEntry)) (p : Val) (e : LEntry)
    (h : refsGet rs p = none) : entriesPreserved rs (refsSet rs p e) := by
  intro q e' hq
  rw [refsGet_refsSet]
  have hne : ¬(q = p) := by
    intro hc
    rw [hc, h] at hq
    cases hq
  rw [if_neg hne]
  exact hq

theorem entriesPreserved_set_through {rs1 rs2 : List (Val × LEntry)} (p : Val) (e : LEntry)
    (h : refsGet rs1 p = none) (hp : entriesPreserved rs1 rs2) :
    entriesPreserved rs1 (refsSet rs2 p e) := by
  intro q e' hq
  rw [refsGet_refsSet]
  have hne : ¬(q = p) := by
    intro hc
    rw [hc, h] at hq
    cases hq
  rw [if_neg hne]
  exact hp q e' hq

theorem entriesFrom_mono {rs1 rs2 : List (Val × LEntry)} {r : LRes}
    (h : entriesPreserved rs1 rs2) (hr : r.entriesFrom rs2) : r.entriesFrom rs1 := by
  cases r with
  | ok v s => exact entriesPreserved_trans h hr
  | err s => exact entriesPreserved_trans h hr
  | oot => trivial

/-- Any completed sweep call returns its input state: the whole sweep is
inert (consequence of the `getKeys(_, false) = []` bug). -/
theorem sweepRun_id : ∀ (fuel : Nat) (c : WCall) (s s2 : LoadSt),
    sweepRun fuel c s = some s2 → s2 = s := by
  intro fuel
  induction fuel with
  | zero =>
    intro c s s2 h
    cases h
  | succ n ih =>
    intro c s s2 h
    cases c with
    | sweep v parent =>
      have hs : sweepRun (n + 1) (.sweep v parent) s = some s := sweep_noop n v parent s
      rw [hs] at h
      cases h
      rfl
    | fieldsLoop i ks =>
      cases ks with
      | nil =>
        cases h
        rfl
      | cons k rest =>
        rw [sweepRun_succ] at h
        simp only [sweepStep] at h
        cases hc : sweepRun n (.sweep (match s.heap.get i with
            | some o => o.getProp k
            | none => .undefined) (some (i, k))) s with
        | none => rw [hc] at h; cases h
        | some s3 =>
          rw [hc] at h
          have h3 := ih _ _ _ hc
          subst h3
          exact ih _ _ _ h
end DataStorage

namespace DataStorage

/-- One load step preserves every existing reference-table entry
verbatim, given that nested calls do and that a completed sweep returns
its input state. -/
theorem loadStep_entries (cfg : Config) (store : StoreT)
    (rec : LCall → LoadSt → LRes) (recW : WCall → LoadSt → Option LoadSt)
    (hrec : ∀ c s, (rec c s).entriesFrom s.refs)
    (hrecW : ∀ c s s2, recW c s = some s2 → s2 = s) (c : LCall) (s : LoadSt) :
    (loadStep cfg store rec recW c s).entriesFrom s.refs := by
  cases c with
  | inst loadKey ca =>
    simp only [loadStep]
    split
    · split
      · exact hrec _ _
      · exact entriesPreserved_refl _
    · split
      · -- `new` on a non-constructor inherited member throws
        exact entriesPreserved_refl _
      · split
        · exact entriesPreserved_refl _
        · exact entriesPreserved_refl _
        · split
          · exact hrec _ _
          · exact entriesPreserved_refl _
  | props i ks loadKey =>
    cases ks with
    | nil => exact entriesPreserved_refl _
    | cons k rest =>
      simp only [loadStep]
      split
      · next v s2 heq =>
        have h1 := hrec (.inst (loadKey ++ k) true) s
        rw [heq] at h1
        exact entriesFrom_mono h1 (hrec _ _)
      · exact hrec _ _
  | custom t loadKey =>
    simp only [loadStep]
    split
    · -- Array
      split
      · split
        · exact entriesPreserved_refl _
        · exact hrec _ _
      · exact entriesPreserved_refl _
    · split
      · -- storageReference
        split
        · -- entry present: resolved value or fresh placeholder, refs untouched
          split
          · exact entriesPreserved_refl _
          · exact entriesPreserved_refl _
        · -- entry absent: mark unresolved, load, mark resolved, sweep
          next hptr =>
          split
          · next w s2 heq =>
            have h1 := hrec
              (.inst (jsStr (valOf (storeGet store (loadKey ++ "pointer")))) true)
              ⟨s.heap, refsSet s.refs (valOf (storeGet store (loadKey ++ "pointer"))) ⟨false, .null⟩⟩
            rw [heq] at h1
            have habs : entriesPreserved s.refs s2.refs :=
              entriesPreserved_trans
                (entriesPreserved_set_absent s.refs _ ⟨false, .null⟩ hptr) h1
            split
            · next s4 heqW =>
              have h4 := hrecW _ _ _ heqW
              subst h4
              exact entriesPreserved_set_through _ ⟨true, w⟩ hptr habs
            · trivial
          · exact entriesFrom_mono
              (entriesPreserved_set_absent s.refs _ ⟨false, .null⟩ hptr) (hrec _ _)
      · split
        · -- Set
          exact hrec _ _
        · split
          · -- Map
            exact hrec _ _
          · -- default: back into loadInstance
            exact hrec _ _
  | items i size idx loadKey =>
    simp only [loadStep]
    split
    · split
      · next v s2 heq =>
        have h1 := hrec (.inst (loadKey ++ "item" ++ toString idx) true) s
        rw [heq] at h1
        exact entriesFrom_mono h1 (hrec _ _)
      · exact hrec _ _
    · exact entriesPreserved_refl _
  | pairs i size idx loadKey =>
    simp only [loadStep]
    split
    · split
      · next kv s2 heq =>
        have h1 := hrec (.inst (loadKey ++ "key" ++ toString idx) true) s
        rw [heq] at h1
        split
        · next vv s3 heq2 =>
          have h2 := hrec (.inst (loadKey ++ "value" ++ toString idx) true) s2
          rw [heq2] at h2
          exact entriesFrom_mono (entriesPreserved_trans h1 h2) (hrec _ _)
        · exact entriesFrom_mono h1 (hrec _ _)
      · exact hrec _ _
    · exact entriesPreserved_refl _

/-- Over any fuel, every load run preserves existing reference-table
entries verbatim. -/
theorem loadRun_entries (cfg : Config) (store : StoreT) :
    ∀ (fuel : Nat) (c : LCall) (s : LoadSt), (loadRun cfg store fuel c s).entriesFrom s.refs := by
  intro fuel
  induction fuel with
  | zero => intro c s; trivial
  | succ n ih =>
    intro c s
    rw [loadRun_succ]
    exact loadStep_entries cfg store _ _ ih (sweepRun_id n) c s

end DataStorage

namespace DataStorage

/-- C5 — Lifecycle of load-side reference-table entries.
(a) Every load call preserves each existing `loadedStorageReferences`
entry verbatim: an entry is never removed, a resolved entry is never
re-resolved or reverted, an unresolved entry present at call entry is
still the same unresolved record on return — so the only transitions a
pointer's entry ever makes are absent → unresolved → resolved, each at
most once.  (b) Dereferencing a pointer whose entry is still unresolved
returns a fresh placeholder record `{type: "storageReference", pointer}`
and leaves the table unchanged.  (c) Dereferencing an absent pointer
first inserts the `unresolved` entry, runs the recursive load against
that table, then sets the entry to `resolved` with the loaded value —
which the final table indeed reports. -/
theorem loadRefLifecycle :
    (∀ (cfg : Config) (fuel : Nat) (key : String) (ca : Bool) (store : StoreT) (s : LoadSt),
      (loadInstance cfg fuel key ca store s).entriesFrom s.refs) ∧
    (∀ (cfg : Config) (fuel : Nat) (key : String) (store : StoreT) (s : LoadSt) (pv : Val),
      pv = valOf (storeGet store (key ++ "pointer")) →
      refsGet s.refs pv = some ⟨false, .null⟩ →
      costumizedLoad cfg (fuel + 1) "storageReference" key store s
        = .ok (.ref s.heap.objs.length) ⟨(s.heap.alloc (mkPointerObj pv)).1, s.refs⟩) ∧
    (∀ (cfg : Config) (fuel : Nat) (key : String) (store : StoreT) (s : LoadSt) (pv : Val)
        (w : Val) (s2 : LoadSt),
      pv = valOf (storeGet store (key ++ "pointer")) →
      refsGet s.refs pv = none →
      loadInstance cfg (fuel + 1) (jsStr pv) true store ⟨s.heap, refsSet s.refs pv ⟨false, .null⟩⟩
        = .ok w s2 →
      costumizedLoad cfg (fuel + 2) "storageReference" key store s
        = .ok w ⟨s2.heap, refsSet s2.refs pv ⟨true, w⟩⟩ ∧
      refsGet (refsSet s2.refs pv ⟨true, w⟩) pv = some ⟨true, w⟩) := by
  refine ⟨?_, ?_, ?_⟩
  · intro cfg fuel key ca store s
    exact loadRun_entries cfg store fuel (.inst key ca) s
  · intro cfg fuel key store s pv hpv hget
    subst hpv
    show loadStep cfg store (loadRun cfg store fuel) (sweepRun fuel)
      (.custom "storageReference" key) s = _
    simp only [loadStep]
    rw [hget]
    rfl
  · intro cfg fuel key store s pv w s2 hpv hget hload
    subst hpv
    constructor
    · show loadStep cfg store (loadRun cfg store (fuel + 1)) (sweepRun (fuel + 1))
        (.custom "storageReference" key) s = _
      have hl : loadRun cfg store (fuel + 1)
          (.inst (jsStr (valOf (storeGet store (key ++ "pointer")))) true)
          ⟨s.heap, refsSet s.refs (valOf (storeGet store (key ++ "pointer"))) ⟨false, .null⟩⟩
          = .ok w s2 := hload
      have hs : sweepRun (fuel + 1) (.sweep w none)
          ⟨s2.heap, refsSet s2.refs (valOf (storeGet store (key ++ "pointer"))) ⟨true, w⟩⟩
          = some ⟨s2.heap, refsSet s2.refs (valOf (storeGet store (key ++ "pointer"))) ⟨true, w⟩⟩ :=
        sweep_noop fuel w none _
      simp [loadStep, hget, hl, hs]
    · rw [refsGet_refsSet]
      simp

/-- C5 witness: the three parts at concrete inputs — a run over a
resolved table preserves it, an unresolved dereference hands back the
placeholder, an absent dereference resolves the pointer to the loaded
value. -/
theorem loadRefLifecycleWitness :
    (loadInstance shippedCfg 5 "K" true []
        ⟨emptyHeap, [(.prim (.str "Q"), ⟨true, .prim (.num 1)⟩)]⟩).entriesFrom
      [(.prim (.str "Q"), ⟨true, .prim (.num 1)⟩)] ∧
    costumizedLoad shippedCfg 5 "storageReference" "A" [("Apointer", .str "P")]
        ⟨emptyHeap, [(.prim (.str "P"), ⟨false, .null⟩)]⟩
      = .ok (.ref 0) ⟨⟨[mkPointerObj (.prim (.str "P"))]⟩,
          [(.prim (.str "P"), ⟨false, .null⟩)]⟩ ∧
    costumizedLoad shippedCfg 6 "storageReference" "A" [("Apointer", .str "P")] ⟨emptyHeap, []⟩
      = .ok .undefined ⟨⟨[emptyPlain]⟩,
          refsSet [(.prim (.str "P"), ⟨false, .null⟩)] (.prim (.str "P")) ⟨true, .undefined⟩⟩ := by
  refine ⟨?_, ?_, ?_⟩
  · exact loadRefLifecycle.1 shippedCfg 5 "K" true []
      ⟨emptyHeap, [(.prim (.str "Q"), ⟨true, .prim (.num 1)⟩)]⟩
  · exact loadRefLifecycle.2.1 shippedCfg 4 "A" [("Apointer", .str "P")]
      ⟨emptyHeap, [(.prim (.str "P"), ⟨false, .null⟩)]⟩ (.prim (.str "P")) (by decide) (by decide)
  · exact (loadRefLifecycle.2.2 shippedCfg 4 "A" [("Apointer", .str "P")] ⟨emptyHeap, []⟩
      (.prim (.str "P")) .undefined ⟨⟨[emptyPlain]⟩, [(.prim (.str "P"), ⟨false, .null⟩)]⟩
      (by decide) (by decide) (by decide)).1

end DataStorage

namespace DataStorage

/-- One load step is insensitive to registering one more type whose
factory produces a blank plain object: the unregistered run builds the
very same empty object by falling through to `instance = {}`. -/
theorem loadStep_registry (cfg cfg2 : Config) (store : StoreT) (τ : String)
    (hab : cfg2.abbrevsLoad = cfg.abbrevsLoad)
    (hpm : ¬(τ ∈ protoMembers))
    (hmiss : lookupStr cfg.registry τ = none)
    (hreg : ∀ t, lookupStr cfg2.registry t
      = if t = τ then some emptyPlain else lookupStr cfg.registry t)
    (rec rec2 : LCall → LoadSt → LRes) (recW : WCall → LoadSt → Option LoadSt)
    (hrec : ∀ c s, rec c s = rec2 c s) (c : LCall) (s : LoadSt) :
    loadStep cfg store rec recW c s = loadStep cfg2 store rec2 recW c s := by
  cases c with
  | inst loadKey ca =>
    simp only [loadStep]
    cases hv : storeGet store (loadKey ++ "t") with
    | none => simp [valOf, jsTruthy, hrec]
    | some p =>
      cases p with
      | num n => simp [valOf, jsTruthy, hrec]
      | bool b => simp [valOf, jsTruthy, hrec]
      | str t =>
        by_cases hts : t = ""
        · subst hts
          simp [valOf, jsTruthy, hrec]
        · by_cases htτ : t = τ
          · subst htτ
            have hτc : ¬(t = "constructor") := by
              intro hc
              exact hpm (by rw [hc]; decide)
            have hacc1 : registryAccess cfg t = .miss := by
              unfold registryAccess
              rw [hmiss, if_neg hτc, if_neg hpm]
            have hacc2 : registryAccess cfg2 t = .cls emptyPlain := by
              unfold registryAccess
              rw [hreg t, if_pos rfl]
            simp [valOf, jsTruthy, hts, hacc1, hacc2, hrec, Heap.alloc]
          · have hacc : registryAccess cfg2 t = registryAccess cfg t := by
              unfold registryAccess
              rw [hreg t, if_neg htτ]
            simp [valOf, jsTruthy, hts, hacc, hrec]
  | props i ks loadKey =>
    cases ks with
    | nil => rfl
    | cons k rest =>
      have he : expandLoad cfg2 k = expandLoad cfg k := by
        unfold expandLoad
        rw [hab]
      simp only [loadStep, hrec, he]
  | custom t loadKey =>
    simp only [loadStep, hrec]
  | items i size idx loadKey =>
    simp only [loadStep, hrec]
  | pairs i size idx loadKey =>
    simp only [loadStep, hrec]

/-- Registry extension by a blank factory changes nothing about any load
run, at any fuel. -/
theorem loadRun_registry (cfg cfg2 : Config) (store : StoreT) (τ : String)
    (hab : cfg2.abbrevsLoad = cfg.abbrevsLoad)
    (hpm : ¬(τ ∈ protoMembers))
    (hmiss : lookupStr cfg.registry τ = none)
    (hreg : ∀ t, lookupStr cfg2.registry t
      = if t = τ then some emptyPlain else lookupStr cfg.registry t) :
    ∀ (fuel : Nat) (c : LCall) (s : LoadSt),
      loadRun cfg store fuel c s = loadRun cfg2 store fuel c s := by
  intro fuel
  induction fuel with
  | zero => intro c s; rfl
  | succ n ih =>
    intro c s
    rw [loadRun_succ, loadRun_succ]
    exact loadStep_registry cfg cfg2 store τ hab hpm hmiss hreg _ _ _ ih c s

end DataStorage

namespace DataStorage

/-- C8 counterexample — A stored type tag colliding with an inherited
`Object.prototype` member is fatal: with no `"toString"` factory
registered, `KlassenRegistry["toString"]` is still truthy through the
prototype chain of the registry object literal (line 356), and
`new KlassenRegistry["toString"]()` in `createInstance` (line 478)
throws `TypeError` — `Object.prototype.toString` is not a constructor —
so the load fails instead of falling back to an untyped record. -/
theorem protoTagFatalLoad :
    loadInstance fooCfgT 10 "G" true [("Gt", .str "toString")] ⟨emptyHeap, []⟩
      = .err ⟨emptyHeap, []⟩ ∧
    lookupStr fooCfgT.registry "toString" = none ∧
    "toString" ∈ protoMembers := by
  exact ⟨by decide, by decide, by decide⟩

/-- C8 amended — For a stored type discriminator that is neither
registered nor an inherited `Object.prototype` member, the fallback is
indeed non-fatal and loses no data: the load under a registry lacking
`τ` behaves *identically*, for every store, key, fuel and state, to the
load under the registry extended with a blank factory for `τ` (the
`instance = {}` fallback builds the very object the factory would).
Concretely, a record tagged `"Ghost"` loads as a plain record holding
the stored field values (second conjunct), and the one *constructible*
prototype member, `"constructor"` (which is `Object`, so `new` yields
`{}`), also falls back to a plain record (third conjunct).  But a tag
colliding with a non-constructor prototype member such as `"toString"`
crashes the load — see the counterexample. -/
theorem unregisteredTagFallback :
    (∀ (cfg cfg2 : Config) (τ : String) (store : StoreT) (fuel : Nat) (key : String)
        (ca : Bool) (s : LoadSt),
      cfg2.abbrevsLoad = cfg.abbrevsLoad →
      ¬(τ ∈ protoMembers) →
      lookupStr cfg.registry τ = none →
      (∀ t, lookupStr cfg2.registry t
        = if t = τ then some emptyPlain else lookupStr cfg.registry t) →
      loadInstance cfg fuel key ca store s = loadInstance cfg2 fuel key ca store s) ∧
    loadInstance fooCfgT 20 "G" true ghostStore ⟨emptyHeap, []⟩
      = .ok (.ref 0)
          ⟨⟨[⟨.plain, [("u", .prim (.num 7)), ("type", .prim (.str "Ghost"))], [], []⟩,
             emptyPlain, emptyPlain]⟩, []⟩ ∧
    loadInstance fooCfgT 20 "C" true ctorStore ⟨emptyHeap, []⟩
      = .ok (.ref 0)
          ⟨⟨[⟨.plain, [("u", .prim (.num 7)), ("type", .prim (.str "constructor"))], [], []⟩,
             emptyPlain, emptyPlain]⟩, []⟩ := by
  refine ⟨?_, by decide, by decide⟩
  intro cfg cfg2 τ store fuel key ca s hab hpm hmiss hreg
  exact loadRun_registry cfg cfg2 store τ hab hpm hmiss hreg fuel (.inst key ca) s

/-- C8 witness: loading the `"Ghost"`-tagged record is the same with and
without a blank `"Ghost"` factory in the registry. -/
theorem unregisteredTagFallbackWitness :
    loadInstance fooCfgT 20 "G" true ghostStore ⟨emptyHeap, []⟩
      = loadInstance ghostCfg 20 "G" true ghostStore ⟨emptyHeap, []⟩ := by
  apply unregisteredTagFallback.1 fooCfgT ghostCfg "Ghost" ghostStore 20 "G" true
    ⟨emptyHeap, []⟩ rfl (by decide) (by decide)
  intro t
  by_cases h : t = "Ghost"
  · subst h
    decide
  · show lookupStr (("Ghost", emptyPlain) :: shippedRegistry) t = _
    rw [if_neg h]
    show (if ("Ghost" == t) = true then some emptyPlain else lookupStr shippedRegistry t) = _
    rw [if_neg (by simpa using fun hc => h (Eq.symm hc))]
    rfl

end DataStorage
